import Mathlib

/-!
# Verification of the BifrostScript value encoding, bytecode and VM

A shallow embedding, in Lean 4, of the parts of the BifrostScript
runtime (`src/src/bifrost_vm_value.{h,c}`, `src/src/bifrost_vm_api.c`,
`src/src/bifrost_vm_function_builder.c`, `src/src/bifrost_vm_gc.c`) that
the specification's claims talk about.  Machine integers are modelled as
`Nat` (64-bit words stay below `2 ^ 64`; the C truncations are written
out with explicit masks, shifts and `%`).  IEEE-754 double arithmetic is
kept abstract behind an explicit parameter structure (`FloatModel`),
because the runtime only moves the 64-bit bit patterns around; every
claim proved below is independent of the concrete float semantics.
-/

namespace Bifrost

/-! ## Value encoding (bifrost_vm_value.h)

A `BifrostValue` is a NaN-boxed 64-bit word.  The constants below are
transcribed from the macros in `bifrost_vm_value.h`.  Note that the
header really defines `k_VMValueFalse` with `k_VMValueTagNull` — this is
what the source says, not a transcription slip. -/

/-- `bfVMValue` / `BifrostValue`: a 64-bit word, modelled as `Nat < 2^64`. -/
abbrev BifrostValue := Nat

def k_doubleSignBit : Nat := 1 <<< 63

def k_QuietNan : Nat := 0x7FFC000000000000

def k_VMValuePointerMask : Nat := k_doubleSignBit ||| k_QuietNan

def k_VMValueTagNull : Nat := 0x1

def k_VMValueTagTrue : Nat := 0x2

def k_VMValueTagFalse : Nat := 0x3

def k_VMValueNull : BifrostValue := k_QuietNan ||| k_VMValueTagNull

def k_VMValueTrue : BifrostValue := k_QuietNan ||| k_VMValueTagTrue

/-- As in the header: `k_VMValueFalse` is `k_QuietNan | k_VMValueTagNull`
(the null tag, not the false tag). -/
def k_VMValueFalse : BifrostValue := k_QuietNan ||| k_VMValueTagNull

/-- Complement of the pointer mask within 64 bits, used by
`bfVMValue_asPointer` (`self & ~k_VMValuePointerMask`). -/
def k_VMValuePointerMaskInv : Nat := 0xFFFFFFFFFFFFFFFF ^^^ k_VMValuePointerMask

/-! ### Type checking (bifrost_vm_value.c) -/

def bfVMValue_isNull (value : BifrostValue) : Bool :=
  value == k_VMValueNull

def bfVMValue_isTrue (value : BifrostValue) : Bool :=
  value == k_VMValueTrue

def bfVMValue_isFalse (value : BifrostValue) : Bool :=
  value == k_VMValueFalse

def bfVMValue_isBool (value : BifrostValue) : Bool :=
  bfVMValue_isTrue value || bfVMValue_isFalse value

def bfVMValue_isPointer (value : BifrostValue) : Bool :=
  (value &&& k_VMValuePointerMask) == k_VMValuePointerMask

def bfVMValue_isNumber (value : BifrostValue) : Bool :=
  (value &&& k_QuietNan) != k_QuietNan

/-! ### Conversions -/

def bfVMValue_fromNull : BifrostValue := k_VMValueNull

def bfVMValue_fromBool (value : Bool) : BifrostValue :=
  if value then k_VMValueTrue else k_VMValueFalse

/-- `bfVMValue_fromPointer`: a non-null address is tagged with the
pointer mask, the null pointer becomes the nil sentinel. -/
def bfVMValue_fromPointer (value : Nat) : BifrostValue :=
  if value ≠ 0 then k_VMValuePointerMask ||| value else bfVMValue_fromNull

def bfVMValue_asPointer (self : BifrostValue) : Nat :=
  self &&& k_VMValuePointerMaskInv

/-- `bfVMValue_isThuthy` (sic): nil, false and a pointer value whose
payload is the null address are falsy, everything else is truthy. -/
def bfVMValue_isThuthy (self : BifrostValue) : Bool :=
  if bfVMValue_isNull self || bfVMValue_isFalse self ||
      (bfVMValue_isPointer self && bfVMValue_asPointer self == 0) then
    false
  else
    true

/-! ### Abstract double semantics

`bfVMValue_asNumber` / `bfVMValue_fromNumber` are bit-pattern
`memcpy`s, so `fromNumber (asNumber a ⊙ asNumber b)` is a function of
the two 64-bit patterns.  The runtime never inspects the numeric result
of a float operation, so we keep IEEE-754 arithmetic abstract: a
`FloatModel` provides the composite pattern-level operations performed
by the host FPU. -/

structure FloatModel where
  /-- pattern of `asNumber a + asNumber b` -/
  dadd : Nat → Nat → Nat
  /-- pattern of `asNumber a - asNumber b` -/
  dsub : Nat → Nat → Nat
  /-- pattern of `asNumber a * asNumber b` -/
  dmul : Nat → Nat → Nat
  /-- pattern of `asNumber a / asNumber b` -/
  ddiv : Nat → Nat → Nat
  /-- `asNumber a == asNumber b` (IEEE equality) -/
  deq : Nat → Nat → Bool
  /-- `asNumber a < asNumber b` -/
  dlt : Nat → Nat → Bool
  /-- `asNumber a > asNumber b` -/
  dgt : Nat → Nat → Bool
  /-- `asNumber a >= asNumber b` -/
  dge : Nat → Nat → Bool

/-- A throwaway float model used to instantiate witnesses; the claims
hold for every model. -/
def trivialFloatModel : FloatModel :=
  ⟨fun _ _ => 0, fun _ _ => 0, fun _ _ => 0, fun _ _ => 0,
   fun _ _ => false, fun _ _ => false, fun _ _ => false, fun _ _ => false⟩

/-! ### Binary operations on values (bifrost_vm_value.c) -/

def bfVMValue_sub (fm : FloatModel) (lhs rhs : BifrostValue) : BifrostValue :=
  if bfVMValue_isNumber lhs && bfVMValue_isNumber rhs then
    fm.dsub lhs rhs
  else
    bfVMValue_fromNull

def bfVMValue_mul (fm : FloatModel) (lhs rhs : BifrostValue) : BifrostValue :=
  if bfVMValue_isNumber lhs && bfVMValue_isNumber rhs then
    fm.dmul lhs rhs
  else
    bfVMValue_fromNull

def bfVMValue_div (fm : FloatModel) (lhs rhs : BifrostValue) : BifrostValue :=
  if bfVMValue_isNumber lhs && bfVMValue_isNumber rhs then
    fm.ddiv lhs rhs
  else
    bfVMValue_fromNull

def bfVMValue_lt (fm : FloatModel) (lhs rhs : BifrostValue) : Bool :=
  if bfVMValue_isNumber lhs && bfVMValue_isNumber rhs then
    fm.dlt lhs rhs
  else
    lhs < rhs

def bfVMValue_gt (fm : FloatModel) (lhs rhs : BifrostValue) : Bool :=
  if bfVMValue_isNumber lhs && bfVMValue_isNumber rhs then
    fm.dgt lhs rhs
  else
    lhs > rhs

def bfVMValue_ge (fm : FloatModel) (lhs rhs : BifrostValue) : Bool :=
  if bfVMValue_isNumber lhs && bfVMValue_isNumber rhs then
    fm.dge lhs rhs
  else
    lhs ≥ rhs

/-! ## Heap objects (bifrost_vm_obj.h)

The VM interpreter inspects heap objects through `BIFROST_AS_OBJ`
pointer dereferences.  We model the live heap as an association list
from (48-bit) addresses to objects, carrying exactly the payload fields
the modelled interpreter fragment reads: object type, string contents
and stored FNV hash, a class's symbol-value table, an
instance/reference/weak-reference's class pointer, and a (scripted or
native) function's arity. -/

inductive HeapObj where
  /-- `BifrostObjStr`: owned bytes plus the hash stored at creation. -/
  | strObj (contents : String) (hash : Nat)
  | moduleObj
  /-- `BifrostObjClass`: `symbols[i].value` table (enough for `call` dispatch). -/
  | clzObj (symbols : List BifrostValue)
  /-- `BifrostObjInstance`: class pointer (`NULL` → `none`). -/
  | instObj (clz : Option Nat)
  /-- `BifrostObjFn`: declared arity (−1 = variadic). -/
  | fnObj (arity : Int)
  /-- `BifrostObjNativeFn`: declared arity (−1 = variadic). -/
  | nativeFnObj (arity : Int)
  /-- `BifrostObjReference` -/
  | refObj (clz : Option Nat)
  /-- `BifrostObjWeakRef` -/
  | weakRefObj (clz : Option Nat)
deriving DecidableEq, Repr

abbrev Heap := List (Nat × HeapObj)

def heapLookup (heap : Heap) (addr : Nat) : Option HeapObj :=
  (heap.find? (fun e => e.1 == addr)).map (·.2)

/-- `bfVMValue_ee`: numbers compare by IEEE equality; two string objects
compare by hash and contents (`bfVMString_cmp` is content equality);
everything else falls through to raw 64-bit equality.  `none` marks the
dereference of a pointer value whose address is not a live object
(undefined behaviour in the C). -/
def bfVMValue_ee (fm : FloatModel) (heap : Heap) (lhs rhs : BifrostValue) :
    Option Bool :=
  if bfVMValue_isNumber lhs && bfVMValue_isNumber rhs then
    some (fm.deq lhs rhs)
  else if bfVMValue_isPointer lhs && bfVMValue_isPointer rhs then
    match heapLookup heap (bfVMValue_asPointer lhs),
        heapLookup heap (bfVMValue_asPointer rhs) with
    | some (HeapObj.strObj c₁ h₁), some (HeapObj.strObj c₂ h₂) =>
        some (h₁ == h₂ && c₁ == c₂)
    | some _, some _ => some (lhs == rhs)
    | _, _ => none
  else
    some (lhs == rhs)

/-! ## Instruction encoding (bifrost_vm_instruction_op.h)

Instructions are 32-bit words: 5-bit opcode, then 9-bit A, and either
9-bit B and 9-bit C or an 18-bit Bx (signed sBx biased by
`BIFROST_INST_RsBx_MAX = 0x3FFFF / 2 = 131071`). -/

def BIFROST_INST_OP_MASK : Nat := 0x1F
def BIFROST_INST_RA_MASK : Nat := 0x1FF
def BIFROST_INST_RA_OFFSET : Nat := 5
def BIFROST_INST_RB_MASK : Nat := 0x1FF
def BIFROST_INST_RB_OFFSET : Nat := 14
def BIFROST_INST_RC_MASK : Nat := 0x1FF
def BIFROST_INST_RC_OFFSET : Nat := 23
def BIFROST_INST_RBx_MASK : Nat := 0x3FFFF
def BIFROST_INST_RBx_OFFSET : Nat := 14
def BIFROST_INST_RsBx_MAX : Nat := BIFROST_INST_RBx_MASK / 2

/-- `BIFROST_INST_INVALID`: the all-ones sentinel word emitted for
`break` and patched on loop exit. -/
def BIFROST_INST_INVALID : Nat := 0xFFFFFFFF

/-- Opcode numbering from the `BF_INST_OP_XTABLE` X-macro (declaration
order of the `bfInstructionOp` enum). -/
def BIFROST_VM_OP_LOAD_SYMBOL : Nat := 0
def BIFROST_VM_OP_LOAD_BASIC : Nat := 1
def BIFROST_VM_OP_STORE_MOVE : Nat := 2
def BIFROST_VM_OP_STORE_SYMBOL : Nat := 3
def BIFROST_VM_OP_NEW_CLZ : Nat := 4
def BIFROST_VM_OP_MATH_ADD : Nat := 5
def BIFROST_VM_OP_MATH_SUB : Nat := 6
def BIFROST_VM_OP_MATH_MUL : Nat := 7
def BIFROST_VM_OP_MATH_DIV : Nat := 8
def BIFROST_VM_OP_MATH_MOD : Nat := 9
def BIFROST_VM_OP_MATH_POW : Nat := 10
def BIFROST_VM_OP_MATH_INV : Nat := 11
def BIFROST_VM_OP_CMP_EE : Nat := 12
def BIFROST_VM_OP_CMP_NE : Nat := 13
def BIFROST_VM_OP_CMP_LT : Nat := 14
def BIFROST_VM_OP_CMP_LE : Nat := 15
def BIFROST_VM_OP_CMP_GT : Nat := 16
def BIFROST_VM_OP_CMP_GE : Nat := 17
def BIFROST_VM_OP_CMP_AND : Nat := 18
def BIFROST_VM_OP_CMP_OR : Nat := 19
def BIFROST_VM_OP_NOT : Nat := 20
def BIFROST_VM_OP_CALL_FN : Nat := 21
def BIFROST_VM_OP_JUMP : Nat := 22
def BIFROST_VM_OP_JUMP_IF : Nat := 23
def BIFROST_VM_OP_JUMP_IF_NOT : Nat := 24
def BIFROST_VM_OP_RETURN : Nat := 25

/-- `BIFROST_MAKE_INST_OP_ABC` -/
def BIFROST_MAKE_INST_OP_ABC (op a b c : Nat) : Nat :=
  (op &&& BIFROST_INST_OP_MASK) |||
    ((a &&& BIFROST_INST_RA_MASK) <<< BIFROST_INST_RA_OFFSET) |||
    ((b &&& BIFROST_INST_RB_MASK) <<< BIFROST_INST_RB_OFFSET) |||
    ((c &&& BIFROST_INST_RC_MASK) <<< BIFROST_INST_RC_OFFSET)

/-- `BIFROST_MAKE_INST_OP_ABx` -/
def BIFROST_MAKE_INST_OP_ABx (op a bx : Nat) : Nat :=
  (op &&& BIFROST_INST_OP_MASK) |||
    ((a &&& BIFROST_INST_RA_MASK) <<< BIFROST_INST_RA_OFFSET) |||
    ((bx &&& BIFROST_INST_RBx_MASK) <<< BIFROST_INST_RBx_OFFSET)

/-- `BIFROST_MAKE_INST_OP_AsBx` for a signed operand: `bx + RsBx_MAX`
is computed in C `int` arithmetic and then masked; for the operands the
compiler emits the sum is non-negative, which `Int.toNat` captures. -/
def BIFROST_MAKE_INST_OP_AsBx (op a : Nat) (sbx : Int) : Nat :=
  (op &&& BIFROST_INST_OP_MASK) |||
    ((a &&& BIFROST_INST_RA_MASK) <<< BIFROST_INST_RA_OFFSET) |||
    (((sbx + (BIFROST_INST_RsBx_MAX : Int)).toNat &&& BIFROST_INST_RBx_MASK) <<<
      BIFROST_INST_RBx_OFFSET)

/-! Decoding (`bfInst_decode*` in bifrost_vm_api.c). -/

def bfInst_decodeOp (inst : Nat) : Nat := inst &&& BIFROST_INST_OP_MASK
def bfInst_decodeRa (inst : Nat) : Nat :=
  (inst >>> BIFROST_INST_RA_OFFSET) &&& BIFROST_INST_RA_MASK
def bfInst_decodeRb (inst : Nat) : Nat :=
  (inst >>> BIFROST_INST_RB_OFFSET) &&& BIFROST_INST_RB_MASK
def bfInst_decodeRc (inst : Nat) : Nat :=
  (inst >>> BIFROST_INST_RC_OFFSET) &&& BIFROST_INST_RC_MASK
def bfInst_decodeRBx (inst : Nat) : Nat :=
  (inst >>> BIFROST_INST_RBx_OFFSET) &&& BIFROST_INST_RBx_MASK
def bfInst_decodeRsBx (inst : Nat) : Int :=
  (bfInst_decodeRBx inst : Int) - (BIFROST_INST_RsBx_MAX : Int)


/-! ## The interpreter loop, one instruction at a time
    (`bfVM_execTopFrame` in bifrost_vm_api.c)

`bfVM_execOp` is the body of the big `switch` in `bfVM_execTopFrame`,
as a function of the decoded instruction fields.  A `StepResult`
records what the case did: fall out of the `switch` (so `++frame->ip`
runs) with updated locals/heap, `goto halt` for `RETURN`, signal a
runtime error (`BF_RUNTIME_ERROR` formats and `goto runtime_error`),
push a frame for a scripted call (`goto frame_start`), or invoke a
native function.  `objectOp` stands for the three heap-object opcodes
(`LOAD_SYMBOL`, `STORE_SYMBOL`, `NEW_CLZ`) whose effect on the object
graph is outside the modelled fragment; no claim depends on their
behaviour, only on which opcodes reach them.  `undefinedBehavior` marks
a C pointer dereference of an address that is not a live object. -/

inductive RuntimeErr where
  /-- `default:` case: `"Invalid OP: %i"` -/
  | invalidOp (op : Nat)
  /-- `"'+' operator of two incompatible types"` -/
  | addIncompatible
  /-- `"Subtraction is not allowed on non number values."` -/
  | subNonNumber
  /-- `"Function (%s) called with %i argument(s) but requires %i."` -/
  | fnArityMismatch
  /-- `"Function<native> called with %i arguments but requires %i."` -/
  | nativeFnArityMismatch
  /-- `"'%s::call' must be defined as a function to use instance as function."` -/
  | callNotFunction
  /-- `"%s does not define a 'call' function."` -/
  | noCallMethod
  /-- `"Not a callable value."` -/
  | notCallable
  /-- `"Not a pointer value to call."` -/
  | notPointerCall
deriving DecidableEq, Repr

inductive StepResult where
  /-- fell out of the `switch`: `++frame->ip` then next iteration -/
  | continueAt (locals : List BifrostValue) (heap : Heap) (ip : Int)
  /-- `RETURN`: `locals[0] = locals[rBx]; goto halt` -/
  | haltFrame (locals : List BifrostValue)
  /-- `BF_RUNTIME_ERROR(...)`: format message, `goto runtime_error` -/
  | runtimeError (e : RuntimeErr)
  /-- `CALL_FN` on a scripted function: `++frame->ip; bfVM_pushCallFrame
  (fn, frame->stack + ra); goto frame_start` -/
  | callScripted (locals : List BifrostValue) (fnAddr : Nat) (ra : Nat) (retIp : Int)
  /-- `CALL_FN` on a native function: push native frame, run host fn -/
  | callNative (locals : List BifrostValue) (fnAddr : Nat) (numArgs : Nat) (retIp : Int)
  /-- `LOAD_SYMBOL` / `STORE_SYMBOL` / `NEW_CLZ`: heap-object operation
  outside the modelled fragment -/
  | objectOp (op ra rb rc rbx : Nat)
  /-- dereference of a dangling pointer (C undefined behaviour) -/
  | undefinedBehavior
deriving DecidableEq, Repr

def StepResult.isRuntimeErr : StepResult → Bool
  | .runtimeError _ => true
  | _ => false

structure VMConfig where
  fm : FloatModel
  /-- `self->build_in_symbols[BIFROST_VM_SYMBOL_CALL]` -/
  call_sym : Nat
  /-- fresh address handed out by `bfObj_NewString`'s allocation -/
  allocAddr : Heap → Nat
  /-- the hash `bfObj_NewString` stores (`bfVMString_hashN`, FNV-1a) -/
  strHash : String → Nat
  /-- `bfDbg_ValueToString` (host/libc-dependent number formatting) -/
  valueToString : Heap → BifrostValue → String

/-- A concrete configuration used by witnesses and counterexamples; the
claims hold for every configuration. -/
def trivialVMConfig : VMConfig :=
  ⟨trivialFloatModel, 2, fun _ => 1, fun _ => 0, fun _ _ => ""⟩

structure ExecState where
  /-- the locals window `self->stack + frame->stack` -/
  locals : List BifrostValue
  heap : Heap
  /-- `frame->fn->constants` -/
  constants : List BifrostValue
  /-- `frame->fn->module` -/
  moduleAddr : Nat
  /-- instruction index of the executing instruction -/
  ip : Int
deriving DecidableEq, Repr

/-- `obj->type == BIFROST_VM_OBJ_STRING` after `BIFROST_AS_OBJ(v)`,
short-circuited behind `bfVMValue_isPointer(v)`. -/
def valueIsStrObj (heap : Heap) (v : BifrostValue) : Option Bool :=
  if bfVMValue_isPointer v then
    match heapLookup heap (bfVMValue_asPointer v) with
    | some (HeapObj.strObj _ _) => some true
    | some _ => some false
    | none => none
  else
    some false

/-- The argument shuffle in `CALL_FN`'s instance-call dispatch:
`bfVM_ensureStackspace(num_args + 1, locals + ra)`, then
`memmove(new_top + 1, new_top, sizeof(bfVMValue) * num_args)`, then
`new_top[0] = bfVMValue_fromPointer(instance)`. -/
def callShiftArgs (locals : List BifrostValue) (ra num_args : Nat)
    (receiver : BifrostValue) : List BifrostValue :=
  let grown := locals ++ List.replicate (ra + num_args + 1 - locals.length) 0
  let shifted := (List.range grown.length).map (fun i =>
    if ra + 1 ≤ i ∧ i ≤ ra + num_args then grown.getD (i - 1) 0 else grown.getD i 0)
  shifted.set ra receiver

/-- Tail of the `CALL_FN` case after `call`-method resolution: dispatch
on the callee object's type with the (possibly shifted) locals and the
(possibly incremented) argument count. -/
def callFnDispatch (st : ExecState) (locals : List BifrostValue)
    (objAddr : Nat) (obj : HeapObj) (ra num_args : Nat) : StepResult :=
  match obj with
  | HeapObj.fnObj arity =>
      if 0 ≤ arity ∧ (num_args : Int) ≠ arity then
        StepResult.runtimeError RuntimeErr.fnArityMismatch
      else
        StepResult.callScripted locals objAddr ra (st.ip + 1)
  | HeapObj.nativeFnObj arity =>
      if 0 ≤ arity ∧ (num_args : Int) ≠ arity then
        StepResult.runtimeError RuntimeErr.nativeFnArityMismatch
      else
        StepResult.callNative locals objAddr num_args (st.ip + 1)
  | _ => StepResult.runtimeError RuntimeErr.notCallable

/-- The `case BIFROST_VM_OP_CALL_FN` body. -/
def execCallFn (cfg : VMConfig) (st : ExecState) (ra rb rc : Nat) : StepResult :=
  let value := st.locals.getD rb 0
  if bfVMValue_isPointer value then
    let addr := bfVMValue_asPointer value
    match heapLookup st.heap addr with
    | none => StepResult.undefinedBehavior
    | some obj0 =>
      -- `if (obj->type == INSTANCE || REFERENCE || WEAK_REF) obj = instance->clz ? ... : obj;`
      let resolved : Option (Nat × HeapObj) :=
        match obj0 with
        | HeapObj.instObj (some c) | HeapObj.refObj (some c)
        | HeapObj.weakRefObj (some c) =>
            (heapLookup st.heap c).map (fun o => (c, o))
        | _ => some (addr, obj0)
      match resolved with
      | none => StepResult.undefinedBehavior
      | some (objAddr, obj1) =>
        match obj1 with
        | HeapObj.clzObj symbols =>
            -- `if (call_sym < bfVMArray_size(&clz->symbols))`
            if hlt : cfg.call_sym < symbols.length then
              let call_value := symbols.get ⟨cfg.call_sym, hlt⟩
              if bfVMValue_isPointer call_value then
                match heapLookup st.heap (bfVMValue_asPointer call_value) with
                | none => StepResult.undefinedBehavior
                | some call_obj =>
                  match call_obj with
                  | HeapObj.fnObj _ | HeapObj.nativeFnObj _ =>
                      callFnDispatch st
                        (callShiftArgs st.locals ra rc (bfVMValue_fromPointer addr))
                        (bfVMValue_asPointer call_value) call_obj ra (rc + 1)
                  | _ => StepResult.runtimeError RuntimeErr.callNotFunction
              else
                StepResult.runtimeError RuntimeErr.callNotFunction
            else
              StepResult.runtimeError RuntimeErr.noCallMethod
        | _ => callFnDispatch st st.locals objAddr obj1 ra rc
  else
    StepResult.runtimeError RuntimeErr.notPointerCall

/-- One `switch (op & BIFROST_INST_OP_MASK)` dispatch with decoded
fields.  The case list below is exactly the case list of the C switch;
opcodes with no case (`MATH_MOD`, `MATH_POW`, `MATH_INV`, `CMP_LE`, and
any value ≥ 26) reach `default:`, which is a runtime error. -/
def bfVM_execOp (cfg : VMConfig) (st : ExecState) (op ra rb rc rbx : Nat)
    (rsbx : Int) : StepResult :=
  if op = BIFROST_VM_OP_RETURN then
    StepResult.haltFrame (st.locals.set 0 (st.locals.getD rbx 0))
  else if op = BIFROST_VM_OP_LOAD_SYMBOL then
    StepResult.objectOp op ra rb rc rbx
  else if op = BIFROST_VM_OP_STORE_SYMBOL then
    StepResult.objectOp op ra rb rc rbx
  else if op = BIFROST_VM_OP_LOAD_BASIC then
    if rbx < 3 then
      StepResult.continueAt
        (st.locals.set ra ([k_VMValueTrue, k_VMValueFalse, k_VMValueNull].getD rbx 0))
        st.heap (st.ip + 1)
    else if rbx = 3 then
      StepResult.continueAt (st.locals.set ra (bfVMValue_fromPointer st.moduleAddr))
        st.heap (st.ip + 1)
    else
      StepResult.continueAt (st.locals.set ra (st.constants.getD (rbx - 4) 0))
        st.heap (st.ip + 1)
  else if op = BIFROST_VM_OP_NEW_CLZ then
    StepResult.objectOp op ra rb rc rbx
  else if op = BIFROST_VM_OP_NOT then
    -- the C stores `fromBool (isThuthy locals[rBx])` (no negation)
    StepResult.continueAt
      (st.locals.set ra (bfVMValue_fromBool (bfVMValue_isThuthy (st.locals.getD rbx 0))))
      st.heap (st.ip + 1)
  else if op = BIFROST_VM_OP_STORE_MOVE then
    StepResult.continueAt (st.locals.set ra (st.locals.getD rbx 0)) st.heap (st.ip + 1)
  else if op = BIFROST_VM_OP_CALL_FN then
    execCallFn cfg st ra rb rc
  else if op = BIFROST_VM_OP_MATH_ADD then
    let lhs := st.locals.getD rb 0
    let rhs := st.locals.getD rc 0
    if bfVMValue_isNumber lhs && bfVMValue_isNumber rhs then
      StepResult.continueAt (st.locals.set ra (cfg.fm.dadd lhs rhs)) st.heap (st.ip + 1)
    else
      match valueIsStrObj st.heap lhs with
      | none => StepResult.undefinedBehavior
      | some lhsIsStr =>
        let concat : StepResult :=
          let contents := cfg.valueToString st.heap lhs ++ cfg.valueToString st.heap rhs
          let newAddr := cfg.allocAddr st.heap
          StepResult.continueAt
            (st.locals.set ra (bfVMValue_fromPointer newAddr))
            ((newAddr, HeapObj.strObj contents (cfg.strHash contents)) :: st.heap)
            (st.ip + 1)
        if lhsIsStr then concat
        else
          match valueIsStrObj st.heap rhs with
          | none => StepResult.undefinedBehavior
          | some rhsIsStr =>
            if rhsIsStr then concat
            else StepResult.runtimeError RuntimeErr.addIncompatible
  else if op = BIFROST_VM_OP_MATH_SUB then
    let lhs := st.locals.getD rb 0
    let rhs := st.locals.getD rc 0
    if !bfVMValue_isNumber lhs || !bfVMValue_isNumber rhs then
      StepResult.runtimeError RuntimeErr.subNonNumber
    else
      StepResult.continueAt (st.locals.set ra (bfVMValue_sub cfg.fm lhs rhs))
        st.heap (st.ip + 1)
  else if op = BIFROST_VM_OP_MATH_MUL then
    StepResult.continueAt
      (st.locals.set ra (bfVMValue_mul cfg.fm (st.locals.getD rb 0) (st.locals.getD rc 0)))
      st.heap (st.ip + 1)
  else if op = BIFROST_VM_OP_MATH_DIV then
    StepResult.continueAt
      (st.locals.set ra (bfVMValue_div cfg.fm (st.locals.getD rb 0) (st.locals.getD rc 0)))
      st.heap (st.ip + 1)
  else if op = BIFROST_VM_OP_CMP_EE then
    match bfVMValue_ee cfg.fm st.heap (st.locals.getD rb 0) (st.locals.getD rc 0) with
    | none => StepResult.undefinedBehavior
    | some b =>
        StepResult.continueAt (st.locals.set ra (bfVMValue_fromBool b)) st.heap (st.ip + 1)
  else if op = BIFROST_VM_OP_CMP_NE then
    match bfVMValue_ee cfg.fm st.heap (st.locals.getD rb 0) (st.locals.getD rc 0) with
    | none => StepResult.undefinedBehavior
    | some b =>
        StepResult.continueAt (st.locals.set ra (bfVMValue_fromBool !b)) st.heap (st.ip + 1)
  else if op = BIFROST_VM_OP_CMP_LT then
    StepResult.continueAt
      (st.locals.set ra
        (bfVMValue_fromBool (bfVMValue_lt cfg.fm (st.locals.getD rb 0) (st.locals.getD rc 0))))
      st.heap (st.ip + 1)
  else if op = BIFROST_VM_OP_CMP_GT then
    StepResult.continueAt
      (st.locals.set ra
        (bfVMValue_fromBool (bfVMValue_gt cfg.fm (st.locals.getD rb 0) (st.locals.getD rc 0))))
      st.heap (st.ip + 1)
  else if op = BIFROST_VM_OP_CMP_GE then
    StepResult.continueAt
      (st.locals.set ra
        (bfVMValue_fromBool (bfVMValue_ge cfg.fm (st.locals.getD rb 0) (st.locals.getD rc 0))))
      st.heap (st.ip + 1)
  else if op = BIFROST_VM_OP_CMP_AND then
    StepResult.continueAt
      (st.locals.set ra
        (bfVMValue_fromBool
          (bfVMValue_isThuthy (st.locals.getD rb 0) && bfVMValue_isThuthy (st.locals.getD rc 0))))
      st.heap (st.ip + 1)
  else if op = BIFROST_VM_OP_CMP_OR then
    StepResult.continueAt
      (st.locals.set ra
        (bfVMValue_fromBool
          (bfVMValue_isThuthy (st.locals.getD rb 0) || bfVMValue_isThuthy (st.locals.getD rc 0))))
      st.heap (st.ip + 1)
  else if op = BIFROST_VM_OP_JUMP then
    StepResult.continueAt st.locals st.heap (st.ip + rsbx)
  else if op = BIFROST_VM_OP_JUMP_IF then
    if bfVMValue_isThuthy (st.locals.getD ra 0) then
      StepResult.continueAt st.locals st.heap (st.ip + rsbx)
    else
      StepResult.continueAt st.locals st.heap (st.ip + 1)
  else if op = BIFROST_VM_OP_JUMP_IF_NOT then
    if !bfVMValue_isThuthy (st.locals.getD ra 0) then
      StepResult.continueAt st.locals st.heap (st.ip + rsbx)
    else
      StepResult.continueAt st.locals st.heap (st.ip + 1)
  else
    StepResult.runtimeError (RuntimeErr.invalidOp op)

/-- Decode a 32-bit instruction word (`bfInst_decode`) and execute it. -/
def bfVM_execInstr (cfg : VMConfig) (st : ExecState) (inst : Nat) : StepResult :=
  bfVM_execOp cfg st (bfInst_decodeOp inst) (bfInst_decodeRa inst)
    (bfInst_decodeRb inst) (bfInst_decodeRc inst) (bfInst_decodeRBx inst)
    (bfInst_decodeRsBx inst)

/-! ## Tokens (bifrost_vm_lexer.h) and the binary-operator switch
    (`Expr_parseBinOp` in bifrost_vm_api.c) -/

/-- The token kinds of `BIFROST_TOKEN_XTABLE`, in declaration order. -/
inductive bfTokenType where
  | BIFROST_TOKEN_L_PAREN | BIFROST_TOKEN_R_PAREN
  | BIFROST_TOKEN_L_SQR_BOI | BIFROST_TOKEN_R_SQR_BOI
  | BIFROST_TOKEN_L_CURLY | BIFROST_TOKEN_R_CURLY
  | BIFROST_TOKEN_HASHTAG | BIFROST_TOKEN_COLON | BIFROST_TOKEN_SEMI_COLON
  | BIFROST_TOKEN_COMMA | BIFROST_TOKEN_EQUALS
  | BIFROST_TOKEN_PLUS | BIFROST_TOKEN_MINUS | BIFROST_TOKEN_MULT
  | BIFROST_TOKEN_DIV | BIFROST_TOKEN_PLUS_EQUALS | BIFROST_TOKEN_MINUS_EQUALS
  | BIFROST_TOKEN_INC | BIFROST_TOKEN_DEC | BIFROST_TOKEN_DOT
  | BIFROST_TOKEN_IDENTIFIER | BIFROST_TOKEN_VAR | BIFROST_TOKEN_IMPORT
  | BIFROST_TOKEN_FUNC | BIFROST_TOKEN_CLASS
  | BIFROST_TOKEN_CTRL_IF | BIFROST_TOKEN_CTRL_ELSE | BIFROST_TOKEN_CTRL_EE
  | BIFROST_TOKEN_CTRL_LT | BIFROST_TOKEN_CTRL_GT
  | BIFROST_TOKEN_CTRL_LE | BIFROST_TOKEN_CTRL_GE
  | BIFROST_TOKEN_CTRL_OR | BIFROST_TOKEN_CTRL_AND | BIFROST_TOKEN_CTRL_NE
  | BIFROST_TOKEN_CTRL_WHILE | BIFROST_TOKEN_CTRL_FOR | BIFROST_TOKEN_RETURN
  | BIFROST_TOKEN_BANG | BIFROST_TOKEN_CONST_STR | BIFROST_TOKEN_CONST_REAL
  | BIFROST_TOKEN_CONST_BOOL | BIFROST_TOKEN_CONST_NIL | BIFROST_TOKEN_CTRL_BREAK
  | BIFROST_TOKEN_NEW | BIFROST_TOKEN_STATIC | BIFROST_TOKEN_AS
  | BIFROST_TOKEN_SUPER | BIFROST_TOKEN_AT_SIGN | BIFROST_TOKEN_EOP
deriving DecidableEq, Repr

/-- The `case '<':` arm of `bfLexer_nextToken`'s punctuation switch:
a `<` followed by `=` lexes as the two-character `<=` token
(`BIFROST_TOKEN_CTRL_LE`), otherwise as `<`. -/
def bfLexer_lessThanToken (next_char : Char) : bfTokenType × String :=
  if next_char = '=' then (bfTokenType.BIFROST_TOKEN_CTRL_LE, "<=")
  else (bfTokenType.BIFROST_TOKEN_CTRL_LT, "<")

/-- The opcode-selection switch at the top of `Expr_parseBinOp`:
dispatch on the first character of the operator token's text
(`token->str_range.str_bgn[0]`), with `<`/`>` disambiguated by the
token type.  The second component records whether the `default:` branch
called `Parser_EmitError` (in which case `inst` keeps its initializer
`BIFROST_VM_OP_CMP_EE`). -/
def Expr_parseBinOp_inst (bin_op : Char) (token_type : bfTokenType) : Nat × Bool :=
  match bin_op with
  | '=' => (BIFROST_VM_OP_CMP_EE, false)
  | '!' => (BIFROST_VM_OP_CMP_NE, false)
  | '+' => (BIFROST_VM_OP_MATH_ADD, false)
  | '-' => (BIFROST_VM_OP_MATH_SUB, false)
  | '*' => (BIFROST_VM_OP_MATH_MUL, false)
  | '/' => (BIFROST_VM_OP_MATH_DIV, false)
  | '%' => (BIFROST_VM_OP_MATH_MOD, false)
  | '^' => (BIFROST_VM_OP_MATH_POW, false)
  | '|' => (BIFROST_VM_OP_CMP_OR, false)
  | '&' => (BIFROST_VM_OP_CMP_AND, false)
  | '<' =>
      (if token_type = bfTokenType.BIFROST_TOKEN_CTRL_LE then BIFROST_VM_OP_CMP_LE
       else BIFROST_VM_OP_CMP_LT, false)
  | '>' =>
      (if token_type = bfTokenType.BIFROST_TOKEN_CTRL_GE then BIFROST_VM_OP_CMP_GE
       else BIFROST_VM_OP_CMP_GT, false)
  | _ => (BIFROST_VM_OP_CMP_EE, true)

/-! ## The host-side call entry point (`bfVM_call`) -/

/-- `BifrostVMError` (bifrost_vm.h), the host-visible error codes. -/
inductive BifrostVMError where
  | BIFROST_VM_ERROR_NONE
  | BIFROST_VM_ERROR_OUT_OF_MEMORY
  | BIFROST_VM_ERROR_RUNTIME
  | BIFROST_VM_ERROR_LEXER
  | BIFROST_VM_ERROR_COMPILE
  | BIFROST_VM_ERROR_FUNCTION_ARITY_MISMATCH
  | BIFROST_VM_ERROR_MODULE_ALREADY_DEFINED
  | BIFROST_VM_ERROR_MODULE_NOT_FOUND
  | BIFROST_VM_ERROR_INVALID_OP_ON_TYPE
  | BIFROST_VM_ERROR_INVALID_ARGUMENT
  | BIFROST_VM_ERROR_STACK_TRACE_BEGIN
  | BIFROST_VM_ERROR_STACK_TRACE
  | BIFROST_VM_ERROR_STACK_TRACE_END
deriving DecidableEq, Repr

inductive bfVMCallResult where
  /-- `bfVM_execTopFrame(self, fn, new_stack_top)`: the scripted body runs -/
  | execTopFrame (fnAddr : Nat)
  /-- native frame pushed, host function pointer invoked, frame popped -/
  | nativeCall (fnAddr : Nat)
  /-- an error code is returned and the callee is not executed -/
  | err (e : BifrostVMError)
deriving DecidableEq, Repr

/-- `bfVM_call` on the value at the given stack slot.  `none` models the
undefined behaviour after the failed `LibC_assert` (non-pointer value,
or a dead address): the C dereferences unconditionally. -/
def bfVM_call (heap : Heap) (value : BifrostValue) (num_args : Int) :
    Option bfVMCallResult :=
  if bfVMValue_isPointer value then
    match heapLookup heap (bfVMValue_asPointer value) with
    | none => none
    | some (HeapObj.fnObj arity) =>
        if arity < 0 ∨ arity = num_args then
          some (bfVMCallResult.execTopFrame (bfVMValue_asPointer value))
        else
          some (bfVMCallResult.err BifrostVMError.BIFROST_VM_ERROR_FUNCTION_ARITY_MISMATCH)
    | some (HeapObj.nativeFnObj arity) =>
        if arity < 0 ∨ arity = num_args then
          some (bfVMCallResult.nativeCall (bfVMValue_asPointer value))
        else
          some (bfVMCallResult.err BifrostVMError.BIFROST_VM_ERROR_FUNCTION_ARITY_MISMATCH)
    | some _ =>
        some (bfVMCallResult.err BifrostVMError.BIFROST_VM_ERROR_INVALID_OP_ON_TYPE)
  else
    none

/-! ## Loop finalization (`loopPop` in bifrost_vm_api.c) -/

/-- `loopPop`: with `body_end = bfVMArray_size(&instructions)`, every
instruction word in `[body_start, body_end)` equal to
`BIFROST_INST_INVALID` is overwritten with
`BIFROST_MAKE_INST_OP_AsBx(JUMP, 0, body_end - i)`. -/
def loopPop (instructions : List Nat) (body_start : Nat) : List Nat :=
  let body_end := instructions.length
  (List.range instructions.length).map (fun i =>
    let inst := instructions.getD i 0
    if body_start ≤ i ∧ inst = BIFROST_INST_INVALID then
      BIFROST_MAKE_INST_OP_AsBx BIFROST_VM_OP_JUMP 0 ((body_end - i : Nat) : Int)
    else inst)

/-! ## The function builder (bifrost_vm_function_builder.c)

`local_vars` holds named locals (`some name`) and anonymous
temporaries (`none`, the `MakeStringLen(NULL, 0)` entries);
`local_var_scope_size` is the per-scope declaration counter stack with
the innermost scope (`bfVMArray_back`) at the head.  The `code_to_line`
array runs parallel to `instructions` and carries no information the
claims mention, so it is omitted. -/

structure BifrostVMFunctionBuilder where
  instructions : List Nat
  constants : List BifrostValue
  local_vars : List (Option String)
  local_var_scope_size : List Nat
  max_local_idx : Nat
deriving DecidableEq, Repr

/-- `bfFuncBuilder_ctor` followed by `bfFuncBuilder_begin` (fresh
arrays, `max_local_idx = 0`, one scope pushed). -/
def bfFuncBuilder_begin : BifrostVMFunctionBuilder :=
  ⟨[], [], [], [0], 0⟩

def bfFuncBuilder_pushScope (self : BifrostVMFunctionBuilder) :
    BifrostVMFunctionBuilder :=
  { self with local_var_scope_size := 0 :: self.local_var_scope_size }

/-- `bfFuncBuilder__getVariable` with `in_current_scope = true`: the C
scans indices `end-1 .. 0` with `end = *bfVMArray_back(scope_sizes)`
and returns the first hit, i.e. the greatest matching index below the
current scope's counter.  A temporary entry has a null name of length 0
and never matches a (non-empty) declared name. -/
def bfFuncBuilder_getVariableInCurrentScope (self : BifrostVMFunctionBuilder)
    (name : String) : Option Nat :=
  (List.range (self.local_var_scope_size.headD 0)).reverse.find?
    (fun i => self.local_vars.getD i none == some name)

/-- `bfFuncBuilder_declVariable`: a redeclaration inside the current
scope records a compile error (`bfVM_SetLastError`) and returns the
previous slot; otherwise the name is appended, the scope counter bumped
and `max_local_idx` raised to the new slot. -/
def bfFuncBuilder_declVariable (self : BifrostVMFunctionBuilder) (name : String) :
    Nat × BifrostVMFunctionBuilder :=
  match bfFuncBuilder_getVariableInCurrentScope self name with
  | some prev_decl => (prev_decl, self)
  | none =>
    let var_loc := self.local_vars.length
    (var_loc,
      { self with
        local_vars := self.local_vars ++ [some name]
        local_var_scope_size :=
          (self.local_var_scope_size.headD 0 + 1) :: self.local_var_scope_size.tail
        max_local_idx :=
          if self.max_local_idx < var_loc then var_loc else self.max_local_idx })

/-- `bfFuncBuilder_pushTemp`: appends `num_temps` anonymous entries and
raises `max_local_idx` to `var_loc_end = var_loc + num_temps` (note:
one *past* the last temporary slot). -/
def bfFuncBuilder_pushTemp (self : BifrostVMFunctionBuilder) (num_temps : Nat) :
    Nat × BifrostVMFunctionBuilder :=
  let var_loc := self.local_vars.length
  let var_loc_end := var_loc + num_temps
  (var_loc,
    { self with
      local_vars := self.local_vars ++ List.replicate num_temps none
      max_local_idx :=
        if self.max_local_idx < var_loc_end then var_loc_end else self.max_local_idx })

/-- `bfVMArray_resize(local_vars, n)`: truncate, or grow with
uninitialized entries. -/
def resizeLocalVars (l : List (Option String)) (n : Nat) : List (Option String) :=
  if n ≤ l.length then l.take n else l ++ List.replicate (n - l.length) none

/-- `bfFuncBuilder_popTemp`: resize `local_vars` back to `start`. -/
def bfFuncBuilder_popTemp (self : BifrostVMFunctionBuilder) (start : Nat) :
    BifrostVMFunctionBuilder :=
  { self with local_vars := resizeLocalVars self.local_vars start }

/-- `bfFuncBuilder_popScope`: drop the innermost scope's variables. -/
def bfFuncBuilder_popScope (self : BifrostVMFunctionBuilder) :
    BifrostVMFunctionBuilder :=
  { self with
    local_vars :=
      self.local_vars.take (self.local_vars.length - self.local_var_scope_size.headD 0)
    local_var_scope_size := self.local_var_scope_size.tail }

/-- `bfFuncBuilder_addConstant`: constants are de-duplicated by exact
value equality (`bfVMArray_find` with the `memcmp` default helper). -/
def bfFuncBuilder_addConstant (self : BifrostVMFunctionBuilder)
    (value : BifrostValue) : Nat × BifrostVMFunctionBuilder :=
  match self.constants.findIdx? (fun v => v == value) with
  | some index => (index, self)
  | none => (self.constants.length, { self with constants := self.constants ++ [value] })

def bfFuncBuilder_addInstABC (self : BifrostVMFunctionBuilder) (op a b c : Nat) :
    BifrostVMFunctionBuilder :=
  { self with instructions := self.instructions ++ [BIFROST_MAKE_INST_OP_ABC op a b c] }

def bfFuncBuilder_addInstABx (self : BifrostVMFunctionBuilder) (op a bx : Nat) :
    BifrostVMFunctionBuilder :=
  { self with instructions := self.instructions ++ [BIFROST_MAKE_INST_OP_ABx op a bx] }

def bfFuncBuilder_addInstAsBx (self : BifrostVMFunctionBuilder) (op a : Nat)
    (sbx : Int) : BifrostVMFunctionBuilder :=
  { self with instructions := self.instructions ++ [BIFROST_MAKE_INST_OP_AsBx op a sbx] }

/-- `bfFuncBuilder_addInstBreak`: emits the raw sentinel word, to be
patched by `loopPop`. -/
def bfFuncBuilder_addInstBreak (self : BifrostVMFunctionBuilder) :
    BifrostVMFunctionBuilder :=
  { self with instructions := self.instructions ++ [BIFROST_INST_INVALID] }

/-- The fields of the produced `BifrostObjFn` that the builder fills in
`bfFuncBuilder_end` (name and `code_to_line` omitted). -/
structure BifrostObjFnBuilt where
  instructions : List Nat
  constants : List BifrostValue
  arity : Int
  needed_stack_space : Nat
deriving DecidableEq, Repr

/-- `bfFuncBuilder_end`: append `RETURN 0`, pop the root scope, and
record `needed_stack_space = max_local_idx + arity + 1` (C `size_t`
arithmetic; for the `arity = -1` variadic marker the sum wraps back to
`max_local_idx`, which `Int.toNat` reproduces for `arity ≥ -1`). -/
def bfFuncBuilder_end (self : BifrostVMFunctionBuilder) (arity : Int) :
    BifrostObjFnBuilt :=
  let self1 := bfFuncBuilder_addInstABx self BIFROST_VM_OP_RETURN 0 0
  let self2 := bfFuncBuilder_popScope self1
  { instructions := self2.instructions
    constants := self2.constants
    arity := arity
    needed_stack_space := ((self2.max_local_idx : Int) + arity + 1).toNat }

/-- A builder call trace: the parser-facing operations applied after
`begin`, with the returned slot indices discarded. -/
inductive BuildOp where
  | declVariable (name : String)
  | pushTemp (num_temps : Nat)
  | popTemp (start : Nat)
  | pushScope
  | popScope
  | addConstant (value : BifrostValue)
  | addInstABC (op a b c : Nat)
  | addInstABx (op a bx : Nat)
  | addInstAsBx (op a : Nat) (sbx : Int)
  | addInstBreak
deriving DecidableEq, Repr

def BuildOp.apply (self : BifrostVMFunctionBuilder) :
    BuildOp → BifrostVMFunctionBuilder
  | BuildOp.declVariable name => (bfFuncBuilder_declVariable self name).2
  | BuildOp.pushTemp n => (bfFuncBuilder_pushTemp self n).2
  | BuildOp.popTemp start => bfFuncBuilder_popTemp self start
  | BuildOp.pushScope => bfFuncBuilder_pushScope self
  | BuildOp.popScope => bfFuncBuilder_popScope self
  | BuildOp.addConstant v => (bfFuncBuilder_addConstant self v).2
  | BuildOp.addInstABC op a b c => bfFuncBuilder_addInstABC self op a b c
  | BuildOp.addInstABx op a bx => bfFuncBuilder_addInstABx self op a bx
  | BuildOp.addInstAsBx op a sbx => bfFuncBuilder_addInstAsBx self op a sbx
  | BuildOp.addInstBreak => bfFuncBuilder_addInstBreak self

def buildRun (ops : List BuildOp) : BifrostVMFunctionBuilder :=
  ops.foldl BuildOp.apply bfFuncBuilder_begin

/-- The slot indices a builder operation *uses* in the emitted code, as
the claim's words describe them: a declaration uses the returned slot,
`pushTemp n` (for `n > 0`) uses slots `var_loc .. var_loc + n - 1`.
This definition follows the claim's phrase "the largest
local/temporary slot index used during the build", to be compared with
the `max_local_idx` the source actually tracks. -/
def BuildOp.specMaxUsedSlot (self : BifrostVMFunctionBuilder) :
    BuildOp → Option Nat
  | BuildOp.declVariable name => some (bfFuncBuilder_declVariable self name).1
  | BuildOp.pushTemp n =>
      if n = 0 then none else some ((bfFuncBuilder_pushTemp self n).1 + n - 1)
  | _ => none

/-- Largest slot index used along a trace started from builder state
`self` (0 when no slot is ever used). -/
def specMaxUsedSlotAux (self : BifrostVMFunctionBuilder) : List BuildOp → Nat
  | [] => 0
  | op :: rest =>
      max ((BuildOp.specMaxUsedSlot self op).getD 0)
        (specMaxUsedSlotAux (BuildOp.apply self op) rest)

/-- Largest slot index used during a build from `begin`. -/
def specMaxUsedSlot (ops : List BuildOp) : Nat :=
  specMaxUsedSlotAux bfFuncBuilder_begin ops

/-! ## The symbol table (`bfVM_getSymbol` in bifrost_vm_api.c)

The growable-array primitives (`bfVMArray_find`, `bfVMArray_emplace`)
are not part of the sources under `src/`; per the specification (§4.3)
the table is an append-only vector with linear (first-match) lookup,
and `bfVM_getSymbolHelper` compares length plus bytes, i.e. string
equality.  A miss appends an owned copy at index `size`. -/

def bfVM_getSymbol (symbols : List String) (name : String) : Nat × List String :=
  match symbols.findIdx? (fun s => s == name) with
  | some idx => (idx, symbols)
  | none => (symbols.length, symbols ++ [name])

/-! ## GC heap-threshold recomputation (`bfGC_Collect` in bifrost_vm_gc.c) -/

structure GCHeapState where
  bytes_allocated : Nat
  heap_size : Nat
deriving DecidableEq, Repr

/-- The bookkeeping at the end of a collection cycle:
`self->bytes_allocated -= collected_bytes`, then
`new_heap_size = bytes_allocated + (size_t)(bytes_allocated * heap_growth_factor)`
and `heap_size = new_heap_size > min_heap_size ? new_heap_size : min_heap_size`.
The float `heap_growth_factor` is modelled as an exact rational; the C
cast of the non-negative product back to `size_t` is `⌊·⌋`. -/
def bfGC_Collect_heapSizeUpdate (bytes_allocated collected_bytes : Nat)
    (heap_growth_factor : Rat) (min_heap_size : Nat) : GCHeapState :=
  let bytes' := bytes_allocated - collected_bytes
  let new_heap_size := bytes' + ((bytes' : Rat) * heap_growth_factor).floor.toNat
  ⟨bytes', if new_heap_size > min_heap_size then new_heap_size else min_heap_size⟩

/-! ## The module registry (`bfVM_findModule` / `bfVM_importModule`)

The registry hash map (`self->modules`) keys are string objects
compared by hash, length and contents — i.e. by string equality, since
the stored hash is a function of the contents.  It is modelled as an
association list from module name to module-object address. -/

abbrev ModuleRegistry := List (String × Nat)

def bfVM_findModule (modules : ModuleRegistry) (name : String) : Option Nat :=
  (modules.find? (fun e => e.1 == name)).map (·.2)

/-- The environment `bfVM_importModule` interacts with: the host
module-load callback (`self->params.module_fn`; returns the source text
or "not found"), and the outcome of `bfVM_compileIntoModule` followed
by `bfVM_runModule` on a fresh module (`true` = some error). -/
structure ImportModuleEnv where
  module_fn : Option (String → String → Option String)
  compileOrRunFails : String → String → Bool

/-- What one `bfVM_importModule` call did: the returned module pointer
(`none` = `NULL`), the registry afterwards, how many times the host
callback ran, and whether module source was compiled and executed. -/
structure ImportTrace where
  result : Option Nat
  modules : ModuleRegistry
  module_fn_calls : Nat
  executed : Bool
deriving DecidableEq, Repr

/-- `bfVM_importModule`: a registered module is returned as-is;
otherwise the host callback is asked for source, a fresh module object
(at `newAddr`) is compiled and run, and only an error-free module is
added to the registry (though the new module object is returned either
way). -/
def bfVM_importModule (env : ImportModuleEnv) (modules : ModuleRegistry)
    (fromName name : String) (newAddr : Nat) : ImportTrace :=
  match bfVM_findModule modules name with
  | some m => ⟨some m, modules, 0, false⟩
  | none =>
    match env.module_fn with
    | none => ⟨none, modules, 0, false⟩
    | some module_fn =>
      match module_fn fromName name with
      | some source =>
          let has_error := env.compileOrRunFails name source
          ⟨some newAddr,
            if has_error then modules else modules ++ [(name, newAddr)],
            1, true⟩
      | none => ⟨none, modules, 1, false⟩

/-! ## Arithmetic characterizations of the bit-level operations -/

theorem land_mod_32 (x : Nat) : x &&& 31 = x % 32 := by
  have h := Nat.and_pow_two_sub_one_eq_mod x 5
  norm_num at h
  exact h

theorem land_mod_512 (x : Nat) : x &&& 511 = x % 512 := by
  have h := Nat.and_pow_two_sub_one_eq_mod x 9
  norm_num at h
  exact h

theorem land_mod_262144 (x : Nat) : x &&& 262143 = x % 262144 := by
  have h := Nat.and_pow_two_sub_one_eq_mod x 18
  norm_num at h
  exact h

theorem lor_shiftLeft_eq_add (s y k : Nat) (h : s < 2 ^ k) :
    s ||| (y <<< k) = s + y * 2 ^ k := by
  rw [Nat.shiftLeft_eq, Nat.or_comm, mul_comm y (2 ^ k),
    ← Nat.mul_add_lt_is_or h y]
  omega

/-- `BIFROST_MAKE_INST_OP_ABC` in plain arithmetic. -/
theorem BIFROST_MAKE_INST_OP_ABC_eq (op a b c : Nat) :
    BIFROST_MAKE_INST_OP_ABC op a b c =
      op % 32 + a % 512 * 32 + b % 512 * 16384 + c % 512 * 8388608 := by
  show (op &&& 0x1F) ||| ((a &&& 0x1FF) <<< 5) ||| ((b &&& 0x1FF) <<< 14) |||
      ((c &&& 0x1FF) <<< 23) = _
  rw [land_mod_32, land_mod_512, land_mod_512, land_mod_512]
  rw [lor_shiftLeft_eq_add _ _ 5 (by omega)]
  rw [lor_shiftLeft_eq_add _ _ 14 (by omega)]
  rw [lor_shiftLeft_eq_add _ _ 23 (by omega)]
  norm_num

/-- `BIFROST_MAKE_INST_OP_ABx` in plain arithmetic. -/
theorem BIFROST_MAKE_INST_OP_ABx_eq (op a bx : Nat) :
    BIFROST_MAKE_INST_OP_ABx op a bx =
      op % 32 + a % 512 * 32 + bx % 262144 * 16384 := by
  show (op &&& 0x1F) ||| ((a &&& 0x1FF) <<< 5) ||| ((bx &&& 0x3FFFF) <<< 14) = _
  rw [land_mod_32, land_mod_512, land_mod_262144]
  rw [lor_shiftLeft_eq_add _ _ 5 (by omega)]
  rw [lor_shiftLeft_eq_add _ _ 14 (by omega)]
  norm_num

/-- `BIFROST_MAKE_INST_OP_AsBx` at a non-negative operand. -/
theorem BIFROST_MAKE_INST_OP_AsBx_natOffset_eq (op a n : Nat) :
    BIFROST_MAKE_INST_OP_AsBx op a (n : Int) =
      op % 32 + a % 512 * 32 + (n + 131071) % 262144 * 16384 := by
  show (op &&& 0x1F) ||| ((a &&& 0x1FF) <<< 5) |||
      ((((n : Int) + (BIFROST_INST_RsBx_MAX : Int)).toNat &&& 0x3FFFF) <<< 14) = _
  have hmax : BIFROST_INST_RsBx_MAX = 131071 := by decide
  have htn : ((n : Int) + (BIFROST_INST_RsBx_MAX : Int)).toNat = n + 131071 := by
    rw [hmax]; omega
  rw [htn, land_mod_32, land_mod_512, land_mod_262144]
  rw [lor_shiftLeft_eq_add _ _ 5 (by omega)]
  rw [lor_shiftLeft_eq_add _ _ 14 (by omega)]
  norm_num

theorem bfInst_decodeOp_eq (inst : Nat) : bfInst_decodeOp inst = inst % 32 := by
  show inst &&& 0x1F = _
  exact land_mod_32 inst

theorem bfInst_decodeRa_eq (inst : Nat) :
    bfInst_decodeRa inst = inst / 32 % 512 := by
  show (inst >>> 5) &&& 0x1FF = _
  rw [Nat.shiftRight_eq_div_pow, land_mod_512]

theorem bfInst_decodeRb_eq (inst : Nat) :
    bfInst_decodeRb inst = inst / 16384 % 512 := by
  show (inst >>> 14) &&& 0x1FF = _
  rw [Nat.shiftRight_eq_div_pow, land_mod_512]

theorem bfInst_decodeRc_eq (inst : Nat) :
    bfInst_decodeRc inst = inst / 8388608 % 512 := by
  show (inst >>> 23) &&& 0x1FF = _
  rw [Nat.shiftRight_eq_div_pow, land_mod_512]

theorem bfInst_decodeRBx_eq (inst : Nat) :
    bfInst_decodeRBx inst = inst / 16384 % 262144 := by
  show (inst >>> 14) &&& 0x3FFFF = _
  rw [Nat.shiftRight_eq_div_pow, land_mod_262144]

/-! Decoding an `ABC`-encoded word recovers the (masked) fields. -/

theorem decodeOp_ABC (op a b c : Nat) :
    bfInst_decodeOp (BIFROST_MAKE_INST_OP_ABC op a b c) = op % 32 := by
  rw [bfInst_decodeOp_eq, BIFROST_MAKE_INST_OP_ABC_eq]
  omega

theorem decodeRa_ABC (op a b c : Nat) :
    bfInst_decodeRa (BIFROST_MAKE_INST_OP_ABC op a b c) = a % 512 := by
  rw [bfInst_decodeRa_eq, BIFROST_MAKE_INST_OP_ABC_eq]
  omega

theorem decodeRb_ABC (op a b c : Nat) :
    bfInst_decodeRb (BIFROST_MAKE_INST_OP_ABC op a b c) = b % 512 := by
  rw [bfInst_decodeRb_eq, BIFROST_MAKE_INST_OP_ABC_eq]
  omega

theorem decodeRc_ABC (op a b c : Nat) :
    bfInst_decodeRc (BIFROST_MAKE_INST_OP_ABC op a b c) = c % 512 := by
  rw [bfInst_decodeRc_eq, BIFROST_MAKE_INST_OP_ABC_eq]
  omega

theorem decodeOp_ABx (op a bx : Nat) :
    bfInst_decodeOp (BIFROST_MAKE_INST_OP_ABx op a bx) = op % 32 := by
  rw [bfInst_decodeOp_eq, BIFROST_MAKE_INST_OP_ABx_eq]
  omega

theorem decodeRa_ABx (op a bx : Nat) :
    bfInst_decodeRa (BIFROST_MAKE_INST_OP_ABx op a bx) = a % 512 := by
  rw [bfInst_decodeRa_eq, BIFROST_MAKE_INST_OP_ABx_eq]
  omega

theorem decodeRBx_ABx (op a bx : Nat) :
    bfInst_decodeRBx (BIFROST_MAKE_INST_OP_ABx op a bx) = bx % 262144 := by
  rw [bfInst_decodeRBx_eq, BIFROST_MAKE_INST_OP_ABx_eq]
  omega

theorem decodeOp_AsBx_natOffset (op a n : Nat) :
    bfInst_decodeOp (BIFROST_MAKE_INST_OP_AsBx op a (n : Int)) = op % 32 := by
  rw [bfInst_decodeOp_eq, BIFROST_MAKE_INST_OP_AsBx_natOffset_eq]
  omega

theorem decodeRsBx_AsBx_natOffset (op a n : Nat) (h : n ≤ 131072) :
    bfInst_decodeRsBx (BIFROST_MAKE_INST_OP_AsBx op a (n : Int)) = (n : Int) := by
  rw [bfInst_decodeRsBx, bfInst_decodeRBx_eq, BIFROST_MAKE_INST_OP_AsBx_natOffset_eq]
  have hmax : BIFROST_INST_RsBx_MAX = 131071 := by decide
  rw [hmax]
  have hlt : (n + 131071) % 262144 = n + 131071 := Nat.mod_eq_of_lt (by omega)
  have : (op % 32 + a % 512 * 32 + (n + 131071) % 262144 * 16384) / 16384 % 262144 =
      n + 131071 := by
    rw [hlt]; omega
  rw [this]
  omega

/-! ## Mutual exclusion of the value predicates -/

theorem isPointer_not_number (v : BifrostValue)
    (h : bfVMValue_isPointer v = true) : bfVMValue_isNumber v = false := by
  have hm : v &&& k_VMValuePointerMask = k_VMValuePointerMask := by
    simpa [bfVMValue_isPointer] using h
  have hq : k_VMValuePointerMask &&& k_QuietNan = k_QuietNan := by decide
  have hv : v &&& k_QuietNan = k_QuietNan := by
    calc v &&& k_QuietNan
        = v &&& (k_VMValuePointerMask &&& k_QuietNan) := by rw [hq]
      _ = v &&& k_VMValuePointerMask &&& k_QuietNan := by rw [Nat.and_assoc]
      _ = k_QuietNan := by rw [hm, hq]
  simp [bfVMValue_isNumber, hv]

theorem bfVMValue_isTrue_eq {v : BifrostValue} (h : bfVMValue_isTrue v = true) :
    v = k_VMValueTrue := by
  simpa [bfVMValue_isTrue] using h

theorem bfVMValue_isNull_eq {v : BifrostValue} (h : bfVMValue_isNull v = true) :
    v = k_VMValueNull := by
  simpa [bfVMValue_isNull] using h

/-! Unfolding lemmas for the individual `switch` cases of `bfVM_execOp`
(each is definitional: the opcode constant selects its branch). -/

theorem exec_op_math_sub (cfg : VMConfig) (st : ExecState) (ra rb rc rbx : Nat)
    (rsbx : Int) :
    bfVM_execOp cfg st BIFROST_VM_OP_MATH_SUB ra rb rc rbx rsbx =
      if !bfVMValue_isNumber (st.locals.getD rb 0) ||
          !bfVMValue_isNumber (st.locals.getD rc 0) then
        StepResult.runtimeError RuntimeErr.subNonNumber
      else
        StepResult.continueAt
          (st.locals.set ra (bfVMValue_sub cfg.fm (st.locals.getD rb 0) (st.locals.getD rc 0)))
          st.heap (st.ip + 1) := rfl

theorem exec_op_math_mul (cfg : VMConfig) (st : ExecState) (ra rb rc rbx : Nat)
    (rsbx : Int) :
    bfVM_execOp cfg st BIFROST_VM_OP_MATH_MUL ra rb rc rbx rsbx =
      StepResult.continueAt
        (st.locals.set ra (bfVMValue_mul cfg.fm (st.locals.getD rb 0) (st.locals.getD rc 0)))
        st.heap (st.ip + 1) := rfl

theorem exec_op_math_div (cfg : VMConfig) (st : ExecState) (ra rb rc rbx : Nat)
    (rsbx : Int) :
    bfVM_execOp cfg st BIFROST_VM_OP_MATH_DIV ra rb rc rbx rsbx =
      StepResult.continueAt
        (st.locals.set ra (bfVMValue_div cfg.fm (st.locals.getD rb 0) (st.locals.getD rc 0)))
        st.heap (st.ip + 1) := rfl

theorem exec_op_jump_if (cfg : VMConfig) (st : ExecState) (ra rb rc rbx : Nat)
    (rsbx : Int) :
    bfVM_execOp cfg st BIFROST_VM_OP_JUMP_IF ra rb rc rbx rsbx =
      if bfVMValue_isThuthy (st.locals.getD ra 0) then
        StepResult.continueAt st.locals st.heap (st.ip + rsbx)
      else
        StepResult.continueAt st.locals st.heap (st.ip + 1) := rfl

theorem exec_op_jump_if_not (cfg : VMConfig) (st : ExecState) (ra rb rc rbx : Nat)
    (rsbx : Int) :
    bfVM_execOp cfg st BIFROST_VM_OP_JUMP_IF_NOT ra rb rc rbx rsbx =
      if !bfVMValue_isThuthy (st.locals.getD ra 0) then
        StepResult.continueAt st.locals st.heap (st.ip + rsbx)
      else
        StepResult.continueAt st.locals st.heap (st.ip + 1) := rfl

theorem exec_op_call_fn (cfg : VMConfig) (st : ExecState) (ra rb rc rbx : Nat)
    (rsbx : Int) :
    bfVM_execOp cfg st BIFROST_VM_OP_CALL_FN ra rb rc rbx rsbx =
      execCallFn cfg st ra rb rc := rfl

theorem exec_op_cmp_le_default (cfg : VMConfig) (st : ExecState) (ra rb rc rbx : Nat)
    (rsbx : Int) :
    bfVM_execOp cfg st BIFROST_VM_OP_CMP_LE ra rb rc rbx rsbx =
      StepResult.runtimeError (RuntimeErr.invalidOp BIFROST_VM_OP_CMP_LE) := rfl

/-- The three other opcodes documented by the instruction table but
absent from the interpreter's `switch` also land in `default:`. -/
theorem exec_op_mod_pow_inv_default (cfg : VMConfig) (st : ExecState)
    (ra rb rc rbx : Nat) (rsbx : Int) :
    bfVM_execOp cfg st BIFROST_VM_OP_MATH_MOD ra rb rc rbx rsbx =
        StepResult.runtimeError (RuntimeErr.invalidOp BIFROST_VM_OP_MATH_MOD) ∧
      bfVM_execOp cfg st BIFROST_VM_OP_MATH_POW ra rb rc rbx rsbx =
        StepResult.runtimeError (RuntimeErr.invalidOp BIFROST_VM_OP_MATH_POW) ∧
      bfVM_execOp cfg st BIFROST_VM_OP_MATH_INV ra rb rc rbx rsbx =
        StepResult.runtimeError (RuntimeErr.invalidOp BIFROST_VM_OP_MATH_INV) :=
  ⟨rfl, rfl, rfl⟩

/-- Executing an `ABC`-encoded instruction with in-range fields is the
`switch` dispatch on those fields. -/
theorem execInstr_ABC (cfg : VMConfig) (st : ExecState) (op a b c : Nat)
    (hop : op < 32) (ha : a < 512) (hb : b < 512) (hc : c < 512) :
    bfVM_execInstr cfg st (BIFROST_MAKE_INST_OP_ABC op a b c) =
      bfVM_execOp cfg st op a b c
        (bfInst_decodeRBx (BIFROST_MAKE_INST_OP_ABC op a b c))
        (bfInst_decodeRsBx (BIFROST_MAKE_INST_OP_ABC op a b c)) := by
  unfold bfVM_execInstr
  rw [decodeOp_ABC, decodeRa_ABC, decodeRb_ABC, decodeRc_ABC,
    Nat.mod_eq_of_lt hop, Nat.mod_eq_of_lt ha, Nat.mod_eq_of_lt hb, Nat.mod_eq_of_lt hc]

/-- C1: The documented instruction set is *not* fully recognized: a
`CMP_LE A,B,C` instruction — which the opcode table documents as
`rA = rB <= rC` and which the parser emits for the source operator
`<=` — has no case in the interpreter's `switch` and always lands in
`default:`, signalling the "Invalid OP" runtime error instead of
storing a comparison result and continuing.  The second and third
conjuncts trace the front end: `<` followed by `=` lexes as the
`BIFROST_TOKEN_CTRL_LE` token `"<="`, and `Expr_parseBinOp` selects
opcode `CMP_LE` (15) for it without a parse error. -/
theorem C1_cmp_le_lands_in_default :
    (∀ (cfg : VMConfig) (st : ExecState) (a b c : Nat),
        bfVM_execInstr cfg st (BIFROST_MAKE_INST_OP_ABC BIFROST_VM_OP_CMP_LE a b c) =
          StepResult.runtimeError (RuntimeErr.invalidOp BIFROST_VM_OP_CMP_LE)) ∧
      bfLexer_lessThanToken '=' = (bfTokenType.BIFROST_TOKEN_CTRL_LE, "<=") ∧
      Expr_parseBinOp_inst '<' bfTokenType.BIFROST_TOKEN_CTRL_LE =
        (BIFROST_VM_OP_CMP_LE, false) := by
  refine ⟨?_, rfl, rfl⟩
  intro cfg st a b c
  rw [bfVM_execInstr, decodeOp_ABC]
  rfl

/-- C1 evaluated at the concrete failing input: the instruction word
`15` (`CMP_LE 0,0,0`) with two numbers in the compared slots. -/
theorem C1_cmp_le_failing_input :
    bfVM_execInstr trivialVMConfig ⟨[0, 1, 2], [], [], 0, 0⟩
        (BIFROST_MAKE_INST_OP_ABC BIFROST_VM_OP_CMP_LE 0 1 2) =
      StepResult.runtimeError (RuntimeErr.invalidOp 15) := by
  rw [execInstr_ABC trivialVMConfig ⟨[0, 1, 2], [], [], 0, 0⟩ BIFROST_VM_OP_CMP_LE 0 1 2
    (by decide) (by decide) (by decide) (by decide), exec_op_cmp_le_default]
  rfl

/-- C3 counterexample: executing `MATH_MUL 0,1,2` with the non-number
operand `true` in slot 1 does *not* signal a runtime error — it stores
nil into `locals[0]` and execution continues with the next instruction.
(The claim asserts a runtime error for `MATH_MUL` on non-numbers.) -/
theorem C3_counterexample :
    bfVM_execInstr trivialVMConfig ⟨[0, k_VMValueTrue, 0], [], [], 0, 0⟩
        (BIFROST_MAKE_INST_OP_ABC BIFROST_VM_OP_MATH_MUL 0 1 2) =
      StepResult.continueAt [k_VMValueNull, k_VMValueTrue, 0] [] 1 ∧
    (bfVM_execInstr trivialVMConfig ⟨[0, k_VMValueTrue, 0], [], [], 0, 0⟩
        (BIFROST_MAKE_INST_OP_ABC BIFROST_VM_OP_MATH_MUL 0 1 2)).isRuntimeErr =
      false := by
  rw [execInstr_ABC trivialVMConfig ⟨[0, k_VMValueTrue, 0], [], [], 0, 0⟩
    BIFROST_VM_OP_MATH_MUL 0 1 2 (by decide) (by decide) (by decide) (by decide),
    exec_op_math_mul]
  refine ⟨?_, rfl⟩
  decide

/-- `bfVMValue_mul` on a non-number operand pair yields nil. -/
theorem bfVMValue_mul_nonnum (fm : FloatModel) (l r : BifrostValue)
    (hnum : (bfVMValue_isNumber l && bfVMValue_isNumber r) = false) :
    bfVMValue_mul fm l r = k_VMValueNull := by
  unfold bfVMValue_mul
  rw [hnum]
  simp only [Bool.false_eq_true, if_false]
  rfl

/-- `bfVMValue_div` on a non-number operand pair yields nil. -/
theorem bfVMValue_div_nonnum (fm : FloatModel) (l r : BifrostValue)
    (hnum : (bfVMValue_isNumber l && bfVMValue_isNumber r) = false) :
    bfVMValue_div fm l r = k_VMValueNull := by
  unfold bfVMValue_div
  rw [hnum]
  simp only [Bool.false_eq_true, if_false]
  rfl

/-- C3 (amended): among the arithmetic opcodes only `MATH_SUB` checks
its operands and signals a runtime error on a non-number; `MATH_MUL`
and `MATH_DIV` store nil into `locals[A]` and continue; `MATH_ADD`
signals the incompatible-types error when no operand is a number and
neither is a string object.  When both operands are numbers, all three
store the numeric result and continue. -/
theorem C3_math_ops_non_number (cfg : VMConfig) (st : ExecState) (a b c : Nat)
    (ha : a < 512) (hb : b < 512) (hc : c < 512) :
    (¬(bfVMValue_isNumber (st.locals.getD b 0) = true ∧
          bfVMValue_isNumber (st.locals.getD c 0) = true) →
        bfVM_execInstr cfg st (BIFROST_MAKE_INST_OP_ABC BIFROST_VM_OP_MATH_SUB a b c) =
            StepResult.runtimeError RuntimeErr.subNonNumber ∧
          bfVM_execInstr cfg st (BIFROST_MAKE_INST_OP_ABC BIFROST_VM_OP_MATH_MUL a b c) =
            StepResult.continueAt (st.locals.set a k_VMValueNull) st.heap (st.ip + 1) ∧
          bfVM_execInstr cfg st (BIFROST_MAKE_INST_OP_ABC BIFROST_VM_OP_MATH_DIV a b c) =
            StepResult.continueAt (st.locals.set a k_VMValueNull) st.heap (st.ip + 1)) ∧
    (¬(bfVMValue_isNumber (st.locals.getD b 0) = true ∧
          bfVMValue_isNumber (st.locals.getD c 0) = true) →
        valueIsStrObj st.heap (st.locals.getD b 0) = some false →
        valueIsStrObj st.heap (st.locals.getD c 0) = some false →
        bfVM_execInstr cfg st (BIFROST_MAKE_INST_OP_ABC BIFROST_VM_OP_MATH_ADD a b c) =
          StepResult.runtimeError RuntimeErr.addIncompatible) ∧
    (bfVMValue_isNumber (st.locals.getD b 0) = true →
        bfVMValue_isNumber (st.locals.getD c 0) = true →
        bfVM_execInstr cfg st (BIFROST_MAKE_INST_OP_ABC BIFROST_VM_OP_MATH_SUB a b c) =
            StepResult.continueAt
              (st.locals.set a (cfg.fm.dsub (st.locals.getD b 0) (st.locals.getD c 0)))
              st.heap (st.ip + 1) ∧
          bfVM_execInstr cfg st (BIFROST_MAKE_INST_OP_ABC BIFROST_VM_OP_MATH_MUL a b c) =
            StepResult.continueAt
              (st.locals.set a (cfg.fm.dmul (st.locals.getD b 0) (st.locals.getD c 0)))
              st.heap (st.ip + 1) ∧
          bfVM_execInstr cfg st (BIFROST_MAKE_INST_OP_ABC BIFROST_VM_OP_MATH_DIV a b c) =
            StepResult.continueAt
              (st.locals.set a (cfg.fm.ddiv (st.locals.getD b 0) (st.locals.getD c 0)))
              st.heap (st.ip + 1)) := by
  have hsub := execInstr_ABC cfg st BIFROST_VM_OP_MATH_SUB a b c (by decide) ha hb hc
  have hmul := execInstr_ABC cfg st BIFROST_VM_OP_MATH_MUL a b c (by decide) ha hb hc
  have hdiv := execInstr_ABC cfg st BIFROST_VM_OP_MATH_DIV a b c (by decide) ha hb hc
  have hadd := execInstr_ABC cfg st BIFROST_VM_OP_MATH_ADD a b c (by decide) ha hb hc
  refine ⟨?_, ?_, ?_⟩
  · intro hnn
    have hcond : (!bfVMValue_isNumber (st.locals.getD b 0) ||
        !bfVMValue_isNumber (st.locals.getD c 0)) = true := by
      rcases hX : bfVMValue_isNumber (st.locals.getD b 0)
      · rfl
      · rcases hY : bfVMValue_isNumber (st.locals.getD c 0)
        · rfl
        · exact absurd ⟨hX, hY⟩ hnn
    have hnum : (bfVMValue_isNumber (st.locals.getD b 0) &&
        bfVMValue_isNumber (st.locals.getD c 0)) = false := by
      rcases hX : bfVMValue_isNumber (st.locals.getD b 0)
      · rfl
      · rcases hY : bfVMValue_isNumber (st.locals.getD c 0)
        · rfl
        · exact absurd ⟨hX, hY⟩ hnn
    refine ⟨?_, ?_, ?_⟩
    · rw [hsub, exec_op_math_sub, hcond]
      rfl
    · rw [hmul, exec_op_math_mul, bfVMValue_mul_nonnum cfg.fm _ _ hnum]
    · rw [hdiv, exec_op_math_div, bfVMValue_div_nonnum cfg.fm _ _ hnum]
  · intro hnn hbs hcs
    have hnum : (bfVMValue_isNumber (st.locals.getD b 0) &&
        bfVMValue_isNumber (st.locals.getD c 0)) = false := by
      rcases hX : bfVMValue_isNumber (st.locals.getD b 0)
      · rfl
      · rcases hY : bfVMValue_isNumber (st.locals.getD c 0)
        · rfl
        · exact absurd ⟨hX, hY⟩ hnn
    rw [hadd]
    show (if (bfVMValue_isNumber (st.locals.getD b 0) &&
        bfVMValue_isNumber (st.locals.getD c 0)) = true then _
      else _) = _
    rw [hnum]
    simp only [Bool.false_eq_true, if_false]
    rw [hbs, hcs]
    rfl
  · intro hB hC
    have hnum : (bfVMValue_isNumber (st.locals.getD b 0) &&
        bfVMValue_isNumber (st.locals.getD c 0)) = true := by
      rw [hB, hC]
      rfl
    have hv : bfVMValue_sub cfg.fm (st.locals.getD b 0) (st.locals.getD c 0) =
        cfg.fm.dsub (st.locals.getD b 0) (st.locals.getD c 0) := by
      unfold bfVMValue_sub
      rw [hnum]
      rfl
    refine ⟨?_, ?_, ?_⟩
    · rw [hsub, exec_op_math_sub, hB, hC, hv]
      rfl
    · rw [hmul, exec_op_math_mul, bfVMValue_mul, hnum]
      rfl
    · rw [hdiv, exec_op_math_div, bfVMValue_div, hnum]
      rfl

/-! ## C2: the value-type predicates -/

/-- C2 counterexample: the word `0x7FFC000000000001` (the nil sentinel)
satisfies `bfVMValue_isFalse` *and* `bfVMValue_isNull`, because the
header defines `k_VMValueFalse` with the nil tag; and the plain
quiet-NaN word `0x7FFC000000000000` (tag 0) satisfies none of the five
predicates, so they are not exhaustive either. -/
theorem C2_counterexample :
    (bfVMValue_isFalse 0x7FFC000000000001 = true ∧
        bfVMValue_isNull 0x7FFC000000000001 = true) ∧
      bfVMValue_isNumber 0x7FFC000000000000 = false ∧
      bfVMValue_isTrue 0x7FFC000000000000 = false ∧
      bfVMValue_isFalse 0x7FFC000000000000 = false ∧
      bfVMValue_isNull 0x7FFC000000000000 = false ∧
      bfVMValue_isPointer 0x7FFC000000000000 = false := by
  refine ⟨⟨by decide, by decide⟩, by decide, by decide, by decide, by decide, ?_⟩
  decide

/-- C2 (amended): `bfVMValue_isFalse` coincides with `bfVMValue_isNull`
(the false sentinel aliases the nil sentinel), and the predicates
`isNumber`, `isTrue`, `isNull`, `isPointer` are pairwise mutually
exclusive; the family is *not* exhaustive: the plain quiet-NaN word
(tag 0) satisfies none of the predicates. -/
theorem C2_value_predicates (v : BifrostValue) :
    (bfVMValue_isFalse v = bfVMValue_isNull v) ∧
    (bfVMValue_isNumber v = true →
        bfVMValue_isTrue v = false ∧ bfVMValue_isNull v = false ∧
          bfVMValue_isPointer v = false) ∧
    (bfVMValue_isTrue v = true →
        bfVMValue_isNull v = false ∧ bfVMValue_isPointer v = false ∧
          bfVMValue_isNumber v = false) ∧
    (bfVMValue_isNull v = true →
        bfVMValue_isPointer v = false ∧ bfVMValue_isNumber v = false) ∧
    (bfVMValue_isPointer v = true → bfVMValue_isNumber v = false) ∧
    (bfVMValue_isNumber k_QuietNan = false ∧ bfVMValue_isTrue k_QuietNan = false ∧
      bfVMValue_isNull k_QuietNan = false ∧ bfVMValue_isPointer k_QuietNan = false) := by
  have hTnum : bfVMValue_isTrue v = true → bfVMValue_isNumber v = false := by
    intro h
    rw [bfVMValue_isTrue_eq h]
    decide
  have hNnum : bfVMValue_isNull v = true → bfVMValue_isNumber v = false := by
    intro h
    rw [bfVMValue_isNull_eq h]
    decide
  have hTnull : bfVMValue_isTrue v = true → bfVMValue_isNull v = false := by
    intro h
    rw [bfVMValue_isTrue_eq h]
    decide
  have hTptr : bfVMValue_isTrue v = true → bfVMValue_isPointer v = false := by
    intro h
    rw [bfVMValue_isTrue_eq h]
    decide
  have hNptr : bfVMValue_isNull v = true → bfVMValue_isPointer v = false := by
    intro h
    rw [bfVMValue_isNull_eq h]
    decide
  refine ⟨rfl, ?_, ?_, ?_, isPointer_not_number v,
    by decide, by decide, by decide, by decide⟩
  · intro h
    refine ⟨?_, ?_, ?_⟩
    · rcases ht : bfVMValue_isTrue v
      · rfl
      · rw [hTnum ht] at h
        cases h
    · rcases hn : bfVMValue_isNull v
      · rfl
      · rw [hNnum hn] at h
        cases h
    · rcases hp : bfVMValue_isPointer v
      · rfl
      · rw [isPointer_not_number v hp] at h
        cases h
  · intro h
    exact ⟨hTnull h, hTptr h, hTnum h⟩
  · intro h
    exact ⟨hNptr h, hNnum h⟩

/-- C2 witness: the amended theorem applied at the concrete word
`k_VMValueTrue`, discharging the `isTrue` hypothesis by evaluation. -/
theorem C2_value_predicates_witness :
    bfVMValue_isNull k_VMValueTrue = false ∧
      bfVMValue_isPointer k_VMValueTrue = false ∧
      bfVMValue_isNumber k_VMValueTrue = false :=
  (C2_value_predicates k_VMValueTrue).2.2.1 (by decide)

/-! ## C4: truthiness and the conditional jumps -/

theorem land_mul_two_pow_eq_zero (a m k : Nat) (h : a < 2 ^ k) :
    a &&& 2 ^ k * m = 0 := by
  apply Nat.eq_of_testBit_eq
  intro i
  simp only [Nat.testBit_and, Nat.zero_testBit]
  by_cases hik : i < k
  · rw [Nat.testBit_mul_pow_two]
    simp [Nat.not_le_of_lt hik]
  · rw [Nat.testBit_lt_two_pow
      (lt_of_lt_of_le h (Nat.pow_le_pow_right (by norm_num) (Nat.le_of_not_lt hik)))]
    simp

/-- For a real (48-bit) address, `bfVMValue_fromPointer` is the pointer
mask plus the address. -/
theorem fromPointer_add (addr : Nat) (h0 : addr ≠ 0) (h : addr < 2 ^ 50) :
    bfVMValue_fromPointer addr = k_VMValuePointerMask + addr := by
  unfold bfVMValue_fromPointer
  rw [if_pos h0]
  have hm : k_VMValuePointerMask = 2 ^ 50 * 16383 := by decide
  rw [hm, ← Nat.mul_add_lt_is_or h 16383]

theorem fromPointer_isPointer (addr : Nat) (h0 : addr ≠ 0) (h : addr < 2 ^ 50) :
    bfVMValue_isPointer (bfVMValue_fromPointer addr) = true := by
  rw [fromPointer_add addr h0 h]
  unfold bfVMValue_isPointer
  have hm : k_VMValuePointerMask = 2 ^ 50 * 16383 := by decide
  rw [hm, Nat.mul_add_lt_is_or h 16383, Nat.and_comm, Nat.and_or_distrib_left,
    Nat.and_self, Nat.and_comm (2 ^ 50 * 16383) addr,
    land_mul_two_pow_eq_zero addr 16383 50 h, Nat.or_zero]
  simp

theorem fromPointer_asPointer (addr : Nat) (h0 : addr ≠ 0) (h : addr < 2 ^ 50) :
    bfVMValue_asPointer (bfVMValue_fromPointer addr) = addr := by
  rw [fromPointer_add addr h0 h]
  unfold bfVMValue_asPointer
  have hinv : k_VMValuePointerMaskInv = 2 ^ 50 - 1 := by decide
  rw [hinv, Nat.and_pow_two_sub_one_eq_mod]
  have hm : k_VMValuePointerMask = 2 ^ 50 * 16383 := by decide
  rw [hm]
  omega

theorem fromPointer_not_null (addr : Nat) (h0 : addr ≠ 0) (h : addr < 2 ^ 50) :
    bfVMValue_isNull (bfVMValue_fromPointer addr) = false := by
  rw [fromPointer_add addr h0 h]
  have hne : k_VMValuePointerMask + addr ≠ k_VMValueNull := by
    have h1 : k_VMValueNull = 0x7FFC000000000001 := by decide
    have h2 : k_VMValuePointerMask = 0xFFFC000000000000 := by decide
    rw [h1, h2]
    omega
  simp only [bfVMValue_isNull, beq_eq_false_iff_ne, ne_eq]
  exact hne

/-- C4: the truthiness function returns `false` exactly on nil, false,
and pointer values with null payload; the number `0.0` (bit pattern
`0`) and a pointer to any live object — e.g. an empty string object —
are truthy; and the `JUMP_IF` / `JUMP_IF_NOT` cases of the interpreter
branch by exactly this function. -/
theorem C4_truthiness :
    (∀ v : BifrostValue,
        bfVMValue_isThuthy v = false ↔
          (bfVMValue_isNull v = true ∨ bfVMValue_isFalse v = true ∨
            (bfVMValue_isPointer v = true ∧ bfVMValue_asPointer v = 0))) ∧
    (bfVMValue_isNumber 0 = true ∧ bfVMValue_isThuthy 0 = true) ∧
    (∀ addr : Nat, addr ≠ 0 → addr < 2 ^ 50 →
        bfVMValue_isThuthy (bfVMValue_fromPointer addr) = true) ∧
    (∀ (cfg : VMConfig) (st : ExecState) (inst : Nat),
        bfInst_decodeOp inst = BIFROST_VM_OP_JUMP_IF →
        bfVM_execInstr cfg st inst =
          if bfVMValue_isThuthy (st.locals.getD (bfInst_decodeRa inst) 0) then
            StepResult.continueAt st.locals st.heap (st.ip + bfInst_decodeRsBx inst)
          else
            StepResult.continueAt st.locals st.heap (st.ip + 1)) ∧
    (∀ (cfg : VMConfig) (st : ExecState) (inst : Nat),
        bfInst_decodeOp inst = BIFROST_VM_OP_JUMP_IF_NOT →
        bfVM_execInstr cfg st inst =
          if !bfVMValue_isThuthy (st.locals.getD (bfInst_decodeRa inst) 0) then
            StepResult.continueAt st.locals st.heap (st.ip + bfInst_decodeRsBx inst)
          else
            StepResult.continueAt st.locals st.heap (st.ip + 1)) := by
  refine ⟨?_, ⟨by decide, by decide⟩, ?_, ?_, ?_⟩
  · intro v
    have h1 : bfVMValue_isThuthy v = false ↔
        (bfVMValue_isNull v || bfVMValue_isFalse v ||
          (bfVMValue_isPointer v && bfVMValue_asPointer v == 0)) = true := by
      unfold bfVMValue_isThuthy
      rcases h : (bfVMValue_isNull v || bfVMValue_isFalse v ||
          (bfVMValue_isPointer v && bfVMValue_asPointer v == 0))
      · simp
      · simp
    rw [h1]
    simp only [Bool.or_eq_true, Bool.and_eq_true, beq_iff_eq]
    exact or_assoc
  · intro addr h0 h
    have hN := fromPointer_not_null addr h0 h
    have hP := fromPointer_isPointer addr h0 h
    have hA := fromPointer_asPointer addr h0 h
    have hF : bfVMValue_isFalse (bfVMValue_fromPointer addr) = false := hN
    have hA0 : (bfVMValue_asPointer (bfVMValue_fromPointer addr) == 0) = false := by
      rw [hA]
      simp only [beq_eq_false_iff_ne, ne_eq]
      exact h0
    unfold bfVMValue_isThuthy
    rw [hN, hF, hP, hA0]
    rfl
  · intro cfg st inst hop
    unfold bfVM_execInstr
    rw [hop]
    exact exec_op_jump_if cfg st _ _ _ _ _
  · intro cfg st inst hop
    unfold bfVM_execInstr
    rw [hop]
    exact exec_op_jump_if_not cfg st _ _ _ _ _

/-- C4 witness: nil is falsy, a pointer to the (empty-)string object at
address 1 is truthy, and a concrete `JUMP_IF` instruction with offset 0
on a truthy local continues at `ip + 0`. -/
theorem C4_truthiness_witness :
    bfVMValue_isThuthy k_VMValueNull = false ∧
      bfVMValue_isThuthy (bfVMValue_fromPointer 1) = true :=
  ⟨(C4_truthiness.1 k_VMValueNull).mpr (Or.inl (by decide)),
    C4_truthiness.2.2.1 1 (by decide) (by decide)⟩

/-! ## C7: arity checking on scripted calls -/

theorem callFnDispatch_fn (st : ExecState) (locals : List BifrostValue)
    (objAddr : Nat) (arity : Int) (ra num_args : Nat) :
    callFnDispatch st locals objAddr (HeapObj.fnObj arity) ra num_args =
      if 0 ≤ arity ∧ (num_args : Int) ≠ arity then
        StepResult.runtimeError RuntimeErr.fnArityMismatch
      else
        StepResult.callScripted locals objAddr ra (st.ip + 1) := rfl

/-- Reduction of the `CALL_FN` case when `locals[B]` holds a pointer
directly to a scripted-function object. -/
theorem execCallFn_fnObj (cfg : VMConfig) (st : ExecState) (ra rb rc : Nat)
    (arity : Int)
    (hptr : bfVMValue_isPointer (st.locals.getD rb 0) = true)
    (hlook : heapLookup st.heap (bfVMValue_asPointer (st.locals.getD rb 0)) =
      some (HeapObj.fnObj arity)) :
    execCallFn cfg st ra rb rc =
      callFnDispatch st st.locals (bfVMValue_asPointer (st.locals.getD rb 0))
        (HeapObj.fnObj arity) ra rc := by
  unfold execCallFn
  simp only [hptr, hlook, if_true]

/-- C7: for a `CALL_FN` whose callee slot holds a scripted function, a
negative declared arity (the −1 variadic marker) accepts any argument
count and pushes a frame; for a declared arity ≥ 0, the runtime
arity-mismatch error is signalled if and only if the supplied count
differs, and otherwise a frame is pushed (the body is only executed in
the frame-push case).  Likewise `bfVM_call` on a scripted function
object returns `FUNCTION_ARITY_MISMATCH` without executing exactly when
a non-negative declared arity differs from `num_args`, and otherwise
proceeds to `bfVM_execTopFrame`. -/
theorem C7_call_arity_check (cfg : VMConfig) (st : ExecState) (a b c : Nat)
    (ha : a < 512) (hb : b < 512) (hc : c < 512) (arity : Int)
    (hptr : bfVMValue_isPointer (st.locals.getD b 0) = true)
    (hlook : heapLookup st.heap (bfVMValue_asPointer (st.locals.getD b 0)) =
      some (HeapObj.fnObj arity))
    (heap₂ : Heap) (value : BifrostValue) (n arity₂ : Int)
    (hptr₂ : bfVMValue_isPointer value = true)
    (hlook₂ : heapLookup heap₂ (bfVMValue_asPointer value) =
      some (HeapObj.fnObj arity₂)) :
    ((arity < 0 →
        bfVM_execInstr cfg st (BIFROST_MAKE_INST_OP_ABC BIFROST_VM_OP_CALL_FN a b c) =
          StepResult.callScripted st.locals
            (bfVMValue_asPointer (st.locals.getD b 0)) a (st.ip + 1)) ∧
      (0 ≤ arity →
        (bfVM_execInstr cfg st (BIFROST_MAKE_INST_OP_ABC BIFROST_VM_OP_CALL_FN a b c) =
            StepResult.runtimeError RuntimeErr.fnArityMismatch ↔ (c : Int) ≠ arity)) ∧
      (0 ≤ arity → (c : Int) = arity →
        bfVM_execInstr cfg st (BIFROST_MAKE_INST_OP_ABC BIFROST_VM_OP_CALL_FN a b c) =
          StepResult.callScripted st.locals
            (bfVMValue_asPointer (st.locals.getD b 0)) a (st.ip + 1))) ∧
    ((arity₂ < 0 →
        bfVM_call heap₂ value n =
          some (bfVMCallResult.execTopFrame (bfVMValue_asPointer value))) ∧
      (0 ≤ arity₂ →
        (bfVM_call heap₂ value n =
            some (bfVMCallResult.err
              BifrostVMError.BIFROST_VM_ERROR_FUNCTION_ARITY_MISMATCH) ↔
          n ≠ arity₂)) ∧
      (0 ≤ arity₂ → n = arity₂ →
        bfVM_call heap₂ value n =
          some (bfVMCallResult.execTopFrame (bfVMValue_asPointer value)))) := by
  have hexec : bfVM_execInstr cfg st
      (BIFROST_MAKE_INST_OP_ABC BIFROST_VM_OP_CALL_FN a b c) =
      if 0 ≤ arity ∧ (c : Int) ≠ arity then
        StepResult.runtimeError RuntimeErr.fnArityMismatch
      else
        StepResult.callScripted st.locals
          (bfVMValue_asPointer (st.locals.getD b 0)) a (st.ip + 1) := by
    rw [execInstr_ABC cfg st BIFROST_VM_OP_CALL_FN a b c (by decide) ha hb hc,
      exec_op_call_fn, execCallFn_fnObj cfg st a b c arity hptr hlook,
      callFnDispatch_fn]
  have hcall : bfVM_call heap₂ value n =
      if arity₂ < 0 ∨ arity₂ = n then
        some (bfVMCallResult.execTopFrame (bfVMValue_asPointer value))
      else
        some (bfVMCallResult.err
          BifrostVMError.BIFROST_VM_ERROR_FUNCTION_ARITY_MISMATCH) := by
    unfold bfVM_call
    rw [hptr₂, hlook₂]
    rfl
  refine ⟨⟨?_, ?_, ?_⟩, ?_, ?_, ?_⟩
  · intro hneg
    rw [hexec, if_neg]
    rintro ⟨h1, _⟩
    omega
  · intro hpos
    rw [hexec]
    by_cases hne : (c : Int) ≠ arity
    · rw [if_pos ⟨hpos, hne⟩]
      simp [hne]
    · rw [if_neg (fun h => hne h.2)]
      simp [hne]
  · intro hpos heqc
    rw [hexec, if_neg]
    rintro ⟨_, h2⟩
    exact h2 heqc
  · intro hneg
    rw [hcall, if_pos (Or.inl hneg)]
  · intro hpos
    rw [hcall]
    by_cases heq : arity₂ = n
    · rw [if_pos (Or.inr heq)]
      simp [heq.symm]
    · rw [if_neg (by rintro (h | h) <;> omega)]
      simp
      omega
  · intro hpos heq
    rw [hcall, if_pos (Or.inr heq.symm)]

/-- C7 witness: a variadic function called through `CALL_FN` pushes a
frame, and `bfVM_call` on a 2-ary function with 3 arguments reports the
arity mismatch without running the body. -/
theorem C7_call_arity_check_witness :
    bfVM_execInstr trivialVMConfig
        ⟨[0, bfVMValue_fromPointer 1], [(1, HeapObj.fnObj (-1))], [], 0, 0⟩
        (BIFROST_MAKE_INST_OP_ABC BIFROST_VM_OP_CALL_FN 0 1 0) =
      StepResult.callScripted [0, bfVMValue_fromPointer 1]
        (bfVMValue_asPointer (bfVMValue_fromPointer 1)) 0 1 ∧
    bfVM_call [(1, HeapObj.fnObj 2)] (bfVMValue_fromPointer 1) 3 =
      some (bfVMCallResult.err
        BifrostVMError.BIFROST_VM_ERROR_FUNCTION_ARITY_MISMATCH) := by
  have h := C7_call_arity_check trivialVMConfig
    ⟨[0, bfVMValue_fromPointer 1], [(1, HeapObj.fnObj (-1))], [], 0, 0⟩
    0 1 0 (by decide) (by decide) (by decide) (-1) (by decide) (by decide)
    [(1, HeapObj.fnObj 2)] (bfVMValue_fromPointer 1) 3 2 (by decide) (by decide)
  exact ⟨h.1.1 (by decide), (h.2.2.1 (by decide)).mpr (by decide)⟩

/-! ## C5: break-sentinel patching on loop exit -/

theorem loopPop_length (l : List Nat) (s : Nat) : (loopPop l s).length = l.length := by
  unfold loopPop
  simp

theorem loopPop_getD (l : List Nat) (s i : Nat) (h : i < l.length) :
    (loopPop l s).getD i 0 =
      if s ≤ i ∧ l.getD i 0 = BIFROST_INST_INVALID then
        BIFROST_MAKE_INST_OP_AsBx BIFROST_VM_OP_JUMP 0 ((l.length - i : Nat) : Int)
      else l.getD i 0 := by
  unfold loopPop
  rw [List.getD_eq_getElem?_getD, List.getElem?_map, List.getElem?_range h]
  simp

/-- C5: after `loopPop`, every all-ones sentinel between the loop's
start index and the end of the emitted code has been rewritten into an
unconditional forward `JUMP` whose (relative) target is the first
instruction after the loop body (`body_end = l.length`); all other
words are untouched; and no word in the loop body equals the sentinel
any more.  The bound `l.length - s ≤ 131072` is the 18-bit `sBx`
encoding range of a single instruction. -/
theorem C5_break_sentinels_patched (l : List Nat) (s : Nat)
    (hlen : l.length - s ≤ 131072) :
    (∀ i, i < l.length → (i < s ∨ l.getD i 0 ≠ BIFROST_INST_INVALID) →
        (loopPop l s).getD i 0 = l.getD i 0) ∧
    (∀ i, s ≤ i → i < l.length → l.getD i 0 = BIFROST_INST_INVALID →
        bfInst_decodeOp ((loopPop l s).getD i 0) = BIFROST_VM_OP_JUMP ∧
          bfInst_decodeRsBx ((loopPop l s).getD i 0) = ((l.length - i : Nat) : Int) ∧
          0 < l.length - i ∧
          (i : Int) + bfInst_decodeRsBx ((loopPop l s).getD i 0) = (l.length : Int)) ∧
    (∀ i, s ≤ i → i < l.length →
        (loopPop l s).getD i 0 ≠ BIFROST_INST_INVALID) := by
  refine ⟨?_, ?_, ?_⟩
  · intro i hi hcase
    rw [loopPop_getD l s i hi, if_neg]
    rintro ⟨h1, h2⟩
    rcases hcase with hc | hc
    · omega
    · exact hc h2
  · intro i hsi hi hinv
    have hoff : l.length - i ≤ 131072 := by omega
    have h1 : bfInst_decodeOp ((loopPop l s).getD i 0) = BIFROST_VM_OP_JUMP := by
      rw [loopPop_getD l s i hi, if_pos ⟨hsi, hinv⟩]
      exact (decodeOp_AsBx_natOffset BIFROST_VM_OP_JUMP 0 (l.length - i)).trans (by decide)
    have h2 : bfInst_decodeRsBx ((loopPop l s).getD i 0) = ((l.length - i : Nat) : Int) := by
      rw [loopPop_getD l s i hi, if_pos ⟨hsi, hinv⟩]
      exact decodeRsBx_AsBx_natOffset BIFROST_VM_OP_JUMP 0 (l.length - i) hoff
    refine ⟨h1, h2, by omega, ?_⟩
    rw [h2]
    omega
  · intro i hsi hi
    by_cases hinv : l.getD i 0 = BIFROST_INST_INVALID
    · intro heq
      have hop := decodeOp_AsBx_natOffset BIFROST_VM_OP_JUMP 0 (l.length - i)
      rw [loopPop_getD l s i hi, if_pos ⟨hsi, hinv⟩] at heq
      rw [heq] at hop
      exact absurd hop (by decide)
    · rw [loopPop_getD l s i hi, if_neg (fun h => hinv h.2)]
      exact hinv

/-- C5 witness: a two-instruction body whose first word is the break
sentinel; after `loopPop` it decodes as a `JUMP` of `+2`, i.e. to the
first instruction after the body. -/
theorem C5_break_sentinels_patched_witness :
    bfInst_decodeOp ((loopPop [4294967295, 5] 0).getD 0 0) = BIFROST_VM_OP_JUMP ∧
      bfInst_decodeRsBx ((loopPop [4294967295, 5] 0).getD 0 0) =
        ((([4294967295, 5] : List Nat).length - 0 : Nat) : Int) ∧
      0 < ([4294967295, 5] : List Nat).length - 0 ∧
      ((0 : Nat) : Int) + bfInst_decodeRsBx ((loopPop [4294967295, 5] 0).getD 0 0) =
        ((([4294967295, 5] : List Nat).length : Nat) : Int) :=
  (C5_break_sentinels_patched [4294967295, 5] 0 (by decide)).2.1 0
    (by decide) (by decide) (by decide)

/-! ## C6: `bfFuncBuilder_end` and the stack-space accounting -/

theorem getD_append_singleton_isSome {l : List (Option String)} {x : Option String}
    {i : Nat} (h : ((l ++ [x]).getD i none).isSome = true) :
    (i < l.length ∧ (l.getD i none).isSome = true) ∨ (i = l.length ∧ x.isSome = true) := by
  rw [List.getD_eq_getElem?_getD] at h
  by_cases hi : i < l.length
  · rw [List.getElem?_append_left hi] at h
    left
    refine ⟨hi, ?_⟩
    rwa [List.getD_eq_getElem?_getD]
  · rw [List.getElem?_append_right (Nat.le_of_not_lt hi)] at h
    rcases heq : i - l.length with _ | k
    · rw [heq] at h
      right
      refine ⟨by omega, ?_⟩
      simpa using h
    · rw [heq] at h
      simp at h

theorem getD_append_replicate_none_isSome {l : List (Option String)} {n i : Nat}
    (h : ((l ++ List.replicate n none).getD i none).isSome = true) :
    i < l.length ∧ (l.getD i none).isSome = true := by
  rw [List.getD_eq_getElem?_getD] at h
  by_cases hi : i < l.length
  · rw [List.getElem?_append_left hi] at h
    refine ⟨hi, ?_⟩
    rwa [List.getD_eq_getElem?_getD]
  · rw [List.getElem?_append_right (Nat.le_of_not_lt hi), List.getElem?_replicate] at h
    split at h <;> simp at h

theorem getD_take_isSome {l : List (Option String)} {n i : Nat}
    (h : ((l.take n).getD i none).isSome = true) :
    (l.getD i none).isSome = true := by
  rw [List.getD_eq_getElem?_getD, List.getElem?_take] at h
  split at h
  · rwa [List.getD_eq_getElem?_getD]
  · simp at h

theorem resizeLocalVars_isSome {l : List (Option String)} {n i : Nat}
    (h : ((resizeLocalVars l n).getD i none).isSome = true) :
    (l.getD i none).isSome = true := by
  unfold resizeLocalVars at h
  split at h
  · exact getD_take_isSome h
  · exact (getD_append_replicate_none_isSome h).2

/-- `max_local_idx` never decreases under a builder operation. -/
theorem apply_max_mono (b : BifrostVMFunctionBuilder) (op : BuildOp) :
    b.max_local_idx ≤ (BuildOp.apply b op).max_local_idx := by
  cases op with
  | declVariable name =>
      unfold BuildOp.apply bfFuncBuilder_declVariable
      cases hfind : bfFuncBuilder_getVariableInCurrentScope b name <;> simp [hfind]
      split <;> omega
  | pushTemp n =>
      unfold BuildOp.apply bfFuncBuilder_pushTemp
      simp only
      split <;> omega
  | popTemp start => exact le_refl _
  | pushScope => exact le_refl _
  | popScope => exact le_refl _
  | addConstant v =>
      unfold BuildOp.apply bfFuncBuilder_addConstant
      cases hfind : b.constants.findIdx? (fun w => w == v) <;> simp [hfind]
  | addInstABC op a bq c => exact le_refl _
  | addInstABx op a bx => exact le_refl _
  | addInstAsBx op a sbx => exact le_refl _
  | addInstBreak => exact le_refl _

theorem buildFoldl_max_mono (ops : List BuildOp) (b : BifrostVMFunctionBuilder) :
    b.max_local_idx ≤ (ops.foldl BuildOp.apply b).max_local_idx := by
  induction ops generalizing b with
  | nil => exact le_refl _
  | cons op rest ih =>
      exact le_trans (apply_max_mono b op) (ih (BuildOp.apply b op))

/-- Every named entry of `local_vars` sits at an index that
`max_local_idx` dominates, and builder operations preserve this. -/
theorem apply_named_below_max (b : BifrostVMFunctionBuilder) (op : BuildOp)
    (hinv : ∀ i, (b.local_vars.getD i none).isSome = true → i ≤ b.max_local_idx) :
    ∀ i, ((BuildOp.apply b op).local_vars.getD i none).isSome = true →
      i ≤ (BuildOp.apply b op).max_local_idx := by
  intro i hi
  cases op with
  | declVariable name =>
      revert hi
      unfold BuildOp.apply bfFuncBuilder_declVariable
      dsimp only
      cases hfind : bfFuncBuilder_getVariableInCurrentScope b name
      · dsimp only
        intro hi
        rcases getD_append_singleton_isSome hi with ⟨hlt, hs⟩ | ⟨heq, _⟩
        · have := hinv i hs
          split <;> omega
        · split <;> omega
      · dsimp only
        exact hinv i
  | pushTemp n =>
      revert hi
      unfold BuildOp.apply bfFuncBuilder_pushTemp
      dsimp only
      intro hi
      have h2 := getD_append_replicate_none_isSome hi
      have := hinv i h2.2
      split <;> omega
  | popTemp start =>
      exact hinv i (resizeLocalVars_isSome hi)
  | pushScope => exact hinv i hi
  | popScope => exact hinv i (getD_take_isSome hi)
  | addConstant v =>
      revert hi
      unfold BuildOp.apply bfFuncBuilder_addConstant
      dsimp only
      split <;> exact hinv i
  | addInstABC op a bq c => exact hinv i hi
  | addInstABx op a bx => exact hinv i hi
  | addInstAsBx op a sbx => exact hinv i hi
  | addInstBreak => exact hinv i hi

/-- The slots an operation uses are dominated by the resulting
`max_local_idx`. -/
theorem specUsed_le_apply_max (b : BifrostVMFunctionBuilder) (op : BuildOp)
    (hinv : ∀ i, (b.local_vars.getD i none).isSome = true → i ≤ b.max_local_idx) :
    (BuildOp.specMaxUsedSlot b op).getD 0 ≤ (BuildOp.apply b op).max_local_idx := by
  cases op with
  | declVariable name =>
      unfold BuildOp.specMaxUsedSlot BuildOp.apply bfFuncBuilder_declVariable
      dsimp only
      cases hfind : bfFuncBuilder_getVariableInCurrentScope b name
      · dsimp only [Option.getD_some]
        split <;> omega
      · rename_i prev
        dsimp only [Option.getD_some]
        have hp := List.find?_some (p := fun j => b.local_vars.getD j none == some name)
          (by simpa [bfFuncBuilder_getVariableInCurrentScope] using hfind)
        have hp2 : (b.local_vars.getD prev none == some name) = true := hp
        have hsome : (b.local_vars.getD prev none).isSome = true := by
          rcases hbeq : b.local_vars.getD prev none with _ | w
          · rw [hbeq] at hp2
            simp at hp2
          · rfl
        exact hinv prev hsome
  | pushTemp n =>
      unfold BuildOp.specMaxUsedSlot BuildOp.apply bfFuncBuilder_pushTemp
      rcases n with _ | m
      · simp
      · dsimp only
        split <;> simp only [Option.getD_none, Option.getD_some] <;>
          first
          | omega
          | (split <;> omega)
  | popTemp start => exact Nat.zero_le _
  | pushScope => exact Nat.zero_le _
  | popScope => exact Nat.zero_le _
  | addConstant v => exact Nat.zero_le _
  | addInstABC op a bq c => exact Nat.zero_le _
  | addInstABx op a bx => exact Nat.zero_le _
  | addInstAsBx op a sbx => exact Nat.zero_le _
  | addInstBreak => exact Nat.zero_le _

theorem specMaxUsedSlotAux_le (ops : List BuildOp) :
    ∀ b : BifrostVMFunctionBuilder,
      (∀ i, (b.local_vars.getD i none).isSome = true → i ≤ b.max_local_idx) →
      specMaxUsedSlotAux b ops ≤ (ops.foldl BuildOp.apply b).max_local_idx := by
  induction ops with
  | nil =>
      intro b _
      exact Nat.zero_le _
  | cons op rest ih =>
      intro b hinv
      simp only [specMaxUsedSlotAux, List.foldl_cons]
      refine max_le ?_ (ih (BuildOp.apply b op) (apply_named_below_max b op hinv))
      exact le_trans (specUsed_le_apply_max b op hinv)
        (buildFoldl_max_mono rest (BuildOp.apply b op))

/-- C6 counterexample: the build trace of a body like `return nil;`
(one temporary pushed at slot 0, a `RETURN`, the temporary popped)
records `needed_stack_space = 2` for arity 0, although the largest
slot index ever used is 0 — the claim's formula gives 0 + 0 + 1 = 1.
(`max_local_idx` is raised to one *past* the last temporary slot.) -/
theorem C6_counterexample :
    (bfFuncBuilder_end
        (buildRun [BuildOp.pushTemp 1, BuildOp.addInstABx 25 0 0, BuildOp.popTemp 0])
        0).needed_stack_space = 2 ∧
      specMaxUsedSlot [BuildOp.pushTemp 1, BuildOp.addInstABx 25 0 0, BuildOp.popTemp 0] = 0 ∧
      (buildRun [BuildOp.pushTemp 1, BuildOp.addInstABx 25 0 0,
          BuildOp.popTemp 0]).max_local_idx = 1 := by
  refine ⟨?_, ?_, ?_⟩ <;> decide

/-- C6 (amended): ending a build appends `RETURN 0` as the final
instruction, and records
`needed_stack_space = max_local_idx + arity + 1`, where `max_local_idx`
is the builder's high-water counter — an upper bound for (but, by the
counterexample, not always equal to) the largest local/temporary slot
index used during the build. -/
theorem C6_end_appends_return (ops : List BuildOp) (arity : Int) :
    (bfFuncBuilder_end (buildRun ops) arity).instructions.getLast? =
        some (BIFROST_MAKE_INST_OP_ABx BIFROST_VM_OP_RETURN 0 0) ∧
      bfInst_decodeOp (BIFROST_MAKE_INST_OP_ABx BIFROST_VM_OP_RETURN 0 0) =
        BIFROST_VM_OP_RETURN ∧
      bfInst_decodeRBx (BIFROST_MAKE_INST_OP_ABx BIFROST_VM_OP_RETURN 0 0) = 0 ∧
      (bfFuncBuilder_end (buildRun ops) arity).needed_stack_space =
        (((buildRun ops).max_local_idx : Int) + arity + 1).toNat ∧
      (0 ≤ arity →
        (bfFuncBuilder_end (buildRun ops) arity).needed_stack_space =
          (buildRun ops).max_local_idx + arity.toNat + 1) ∧
      specMaxUsedSlot ops ≤ (buildRun ops).max_local_idx := by
  refine ⟨List.getLast?_concat _, (decodeOp_ABx 25 0 0).trans (by decide),
    (decodeRBx_ABx 25 0 0).trans (by decide), rfl, ?_, ?_⟩
  · intro hpos
    show (((buildRun ops).max_local_idx : Int) + arity + 1).toNat = _
    omega
  · refine specMaxUsedSlotAux_le ops bfFuncBuilder_begin ?_
    intro i hi
    simp [bfFuncBuilder_begin] at hi

/-- C6 witness: the amended formula evaluated on the empty build with
arity 0. -/
theorem C6_end_appends_return_witness :
    (bfFuncBuilder_end (buildRun []) 0).needed_stack_space =
      (buildRun []).max_local_idx + (0 : Int).toNat + 1 :=
  (C6_end_appends_return [] 0).2.2.2.2.1 (by decide)

/-- C3 witness: the amended theorem applied at `a=0, b=1, c=2` on the
locals `[0, true, 0]` (slot 1 holds the non-number `true`): `MATH_SUB`
signals the non-number runtime error. -/
theorem C3_math_ops_non_number_witness :
    bfVM_execInstr trivialVMConfig ⟨[0, k_VMValueTrue, 0], [], [], 0, 0⟩
        (BIFROST_MAKE_INST_OP_ABC BIFROST_VM_OP_MATH_SUB 0 1 2) =
      StepResult.runtimeError RuntimeErr.subNonNumber := by
  have h := C3_math_ops_non_number trivialVMConfig ⟨[0, k_VMValueTrue, 0], [], [], 0, 0⟩
    0 1 2 (by decide) (by decide) (by decide)
  exact (h.1 (by decide)).1

/-! ## C8: symbol-table helper lemmas -/

/-- `Rat.floor` is the floor of the `FloorRing` instance on `Rat`. -/
theorem ratFloor_eq_floor (q : Rat) : q.floor = ⌊q⌋ := rfl

theorem getSymbol_eq_found {symbols : List String} {name : String} {idx : Nat}
    (h : symbols.findIdx? (fun s => s == name) = some idx) :
    bfVM_getSymbol symbols name = (idx, symbols) := by
  unfold bfVM_getSymbol
  rw [h]

theorem getSymbol_eq_fresh {symbols : List String} {name : String}
    (h : symbols.findIdx? (fun s => s == name) = none) :
    bfVM_getSymbol symbols name = (symbols.length, symbols ++ [name]) := by
  unfold bfVM_getSymbol
  rw [h]

theorem findIdx?_append_of_some {l t : List String} {p : String → Bool} {i : Nat}
    (h : l.findIdx? p = some i) : (l ++ t).findIdx? p = some i := by
  rw [List.findIdx?_append, h]
  rfl

/-- After interning, the name is found at the returned id. -/
theorem getSymbol_self_found (symbols : List String) (name : String) :
    ((bfVM_getSymbol symbols name).2).findIdx? (fun s => s == name) =
      some (bfVM_getSymbol symbols name).1 := by
  cases h : symbols.findIdx? (fun s => s == name) with
  | some idx =>
      rw [getSymbol_eq_found h]
      exact h
  | none =>
      rw [getSymbol_eq_fresh h, List.findIdx?_append, h]
      simp [List.findIdx?]

/-- C8: symbol ids are stable and the table is append-only: interning
only ever appends to the table; a name not yet interned is assigned
the current table size as its id and stored there; an interned name
keeps its id on every later lookup, however the table is extended
afterwards; and an id previously assigned to any other name is
unchanged by an interning. -/
theorem C8_symbol_ids_stable (symbols ext : List String) (name other : String) (i : Nat) :
    (∃ tail, (bfVM_getSymbol symbols name).2 = symbols ++ tail) ∧
    (symbols.findIdx? (fun s => s == name) = none →
        bfVM_getSymbol symbols name = (symbols.length, symbols ++ [name])) ∧
    ((bfVM_getSymbol ((bfVM_getSymbol symbols name).2 ++ ext) name).1 =
        (bfVM_getSymbol symbols name).1) ∧
    (symbols.findIdx? (fun s => s == other) = some i →
        ((bfVM_getSymbol symbols name).2).findIdx? (fun s => s == other) = some i) := by
  refine ⟨?_, getSymbol_eq_fresh, ?_, ?_⟩
  · cases h : symbols.findIdx? (fun s => s == name) with
    | some idx => exact ⟨[], by rw [getSymbol_eq_found h, List.append_nil]⟩
    | none => exact ⟨[name], by rw [getSymbol_eq_fresh h]⟩
  · rw [getSymbol_eq_found (findIdx?_append_of_some (getSymbol_self_found symbols name))]
  · intro hother
    cases h : symbols.findIdx? (fun s => s == name) with
    | some idx =>
        rw [getSymbol_eq_found h]
        exact hother
    | none =>
        rw [getSymbol_eq_fresh h]
        exact findIdx?_append_of_some hother

/-- C8 witness: in the table `["x"]` the fresh name `"y"` gets id 1 and
is appended; its id survives a later extension by `["z"]`; the id 0 of
`"x"` is unchanged. -/
theorem C8_symbol_ids_stable_witness :
    bfVM_getSymbol ["x"] "y" = (1, ["x", "y"]) ∧
    (bfVM_getSymbol ((bfVM_getSymbol ["x"] "y").2 ++ ["z"]) "y").1 =
      (bfVM_getSymbol ["x"] "y").1 ∧
    ((bfVM_getSymbol ["x"] "y").2).findIdx? (fun s => s == "x") = some 0 := by
  have h := C8_symbol_ids_stable ["x"] ["z"] "y" "x" 0
  exact ⟨h.2.1 (by decide), h.2.2.1, h.2.2.2 (by decide)⟩

/-- C9: after a collection cycle, `bytes_allocated` holds the byte
count remaining after subtracting the collected bytes, and the heap
threshold is `max min_heap_size (bytes_allocated * (1 + growth_factor))`
(the non-negative real product truncated to an integer, as the C cast
to `size_t` does). -/
theorem C9_gc_heap_threshold (n c : Nat) (f : Rat) (m : Nat) (hf : 0 ≤ f) :
    bfGC_Collect_heapSizeUpdate n c f m =
      ⟨n - c, max m ((((n - c : Nat) : Rat) * (1 + f)).floor.toNat)⟩ := by
  unfold bfGC_Collect_heapSizeUpdate
  simp only [GCHeapState.mk.injEq, ratFloor_eq_floor]
  refine ⟨trivial, ?_⟩
  have hkey : ⌊(((n - c : Nat) : Rat)) * (1 + f)⌋ =
      ((n - c : Nat) : Int) + ⌊(((n - c : Nat) : Rat)) * f⌋ := by
    rw [mul_add, mul_one,
      show (((n - c : Nat) : Rat)) = ((((n - c : Nat) : Int)) : Rat) by push_cast; ring,
      Int.floor_int_add]
  have hnn : 0 ≤ ⌊(((n - c : Nat) : Rat)) * f⌋ :=
    Int.floor_nonneg.mpr (mul_nonneg (by positivity) hf)
  rw [hkey]
  split <;> omega

/-- C9 witness: collecting 40 of 100 bytes with growth factor 1 and
minimum heap size 50 leaves 60 bytes allocated and threshold 120. -/
theorem C9_gc_heap_threshold_witness :
    bfGC_Collect_heapSizeUpdate 100 40 1 50 = ⟨60, 120⟩ := by
  rw [C9_gc_heap_threshold 100 40 1 50 (by norm_num)]
  norm_num
  decide

/-- C10: importing a module already present in the registry returns the
registered module object directly: the host module-load callback is not
invoked, no module source is compiled or run, and the registry is
unchanged. -/
theorem C10_import_registered_module (env : ImportModuleEnv)
    (modules : ModuleRegistry) (fromName name : String) (newAddr addr : Nat)
    (h : bfVM_findModule modules name = some addr) :
    bfVM_importModule env modules fromName name newAddr =
      ⟨some addr, modules, 0, false⟩ := by
  unfold bfVM_importModule
  rw [h]

/-- C10 witness: the registry `[("m", 7)]` with a host callback present;
importing `"m"` again returns address 7, runs nothing and leaves the
registry alone. -/
theorem C10_import_registered_module_witness :
    bfVM_importModule ⟨some (fun _ _ => some "src"), fun _ _ => false⟩
        [("m", 7)] "main" "m" 99 =
      ⟨some 7, [("m", 7)], 0, false⟩ :=
  C10_import_registered_module ⟨some (fun _ _ => some "src"), fun _ _ => false⟩
    [("m", 7)] "main" "m" 99 7 (by decide)

end Bifrost
